import Mathlib

/-!
Verification development for the Juris reactive state-and-rendering engine
(juris.js, bundled).  The definitions below are a shallow embedding of the
relevant source functions; theorems settle the specification claims about
them.
-/

set_option maxRecDepth 4000

namespace Juris

/-- JSON-shaped JavaScript value as stored in the state tree.  JS arrays are
objects whose keys are index strings, distinguished by an `isArr` flag (this
is how `deepEquals` in the source observes them: `Array.isArray` plus
`Object.keys`).  Symbols carry an identity: two separately allocated symbols
are distinct even with the same description.  Numbers are restricted to
integers (the claims use only integer values). -/
inductive Value where
  | null
  | bool (b : Bool)
  | num (n : Int)
  | str (s : String)
  | sym (id : Nat)
  | obj (isArr : Bool) (fields : List (String × Value))

/-- Fields of a JS object: an association list in key insertion order,
duplicate-free for objects produced by the engine. -/
abbrev Fields := List (String × Value)

/-- JS object property read: `fields[k]`, `none` for `undefined`. -/
def lookupField : Fields → String → Option Value
  | [], _ => none
  | (k2, v) :: rest, k => if k2 == k then some v else lookupField rest k

/-- JS object property write: overwrite in place preserving key order, or
append a new key at the end. -/
def setField : Fields → String → Value → Fields
  | [], k, v => [(k, v)]
  | (k2, v2) :: rest, k, v =>
      if k2 == k then (k2, v) :: rest else (k2, v2) :: setField rest k v

mutual

/-- Source `deepEquals(a, b)`: primitives compare by strict equality;
objects require `Array.isArray` agreement and equal key counts, and every
key of `a` must occur in `b` (`keysB.includes(key)`) with deep-equal values
(`deepEquals(a[key], b[key])` — the key lookup in `b` combined with the
membership test is `lookupField`).  The `a === b` early return of the source
is subsumed: identical structures compare equal through the structural
branches. -/
def deepEquals : Value → Value → Bool
  | .null, .null => true
  | .bool x, .bool y => x == y
  | .num x, .num y => x == y
  | .str x, .str y => x == y
  | .sym i, .sym j => i == j
  | .obj ia fa, .obj ib fb => ia == ib && fa.length == fb.length && deepEqFields fa fb
  | _, _ => false

/-- The `keysA.every(key => keysB.includes(key) && deepEquals(a[key], b[key]))`
loop. -/
def deepEqFields : Fields → Fields → Bool
  | [], _ => true
  | (k, v) :: rest, fb =>
      (match lookupField fb k with
       | some w => deepEquals v w
       | none => false) && deepEqFields rest fb

end

/-- Key lists of well-formed JS objects are duplicate-free. -/
def noDupKeys : List String → Bool
  | [] => true
  | k :: ks => !ks.contains k && noDupKeys ks

mutual

/-- Well-formed value: every object level has duplicate-free keys (JS object
literals and engine-produced objects always satisfy this). -/
def wfValue : Value → Bool
  | .obj _ fs => noDupKeys (fs.map Prod.fst) && wfFields fs
  | _ => true

def wfFields : Fields → Bool
  | [] => true
  | (_, v) :: rest => wfValue v && wfFields rest

end

/-! ## Paths and the state tree -/

/-- `String.prototype.split` on the single-character separator dot,
implemented over the character list (JS `"".split(".")` is `[""]` and a
trailing dot yields a trailing empty piece). -/
def splitDot (cs : List Char) : List (List Char) :=
  match cs with
  | [] => [[]]
  | c :: rest =>
      match splitDot rest with
      | [] => [[]]
      | g :: gs => if c = '.' then [] :: g :: gs else (c :: g) :: gs

/-- `path.includes("..")`: two consecutive dots somewhere in the string. -/
def hasDoubleDot : List Char → Bool
  | [] => false
  | [_] => false
  | a :: b :: rest => (a = '.' && b = '.') || hasDoubleDot (b :: rest)

/-- Source `isValidPath`: a string path, non-empty after trimming (that is,
containing at least one non-whitespace character), that does not contain
two consecutive dots. -/
def isValidPath (path : String) : Bool :=
  path.toList.any (fun c => !c.isWhitespace) && !hasDoubleDot path.toList

/-- Source `getPathParts`: `path.split(".").filter(Boolean)` — empty
segments are falsy and dropped. -/
def getPathParts (path : String) : List String :=
  ((splitDot path.toList).map (fun g => String.mk g)).filter (fun s => s ≠ "")

/-- `String.prototype.startsWith`. -/
def jsStartsWith (s pre : String) : Bool := pre.toList.isPrefixOf s.toList

/-- `Array.prototype.join(".")` on a non-empty parts array. -/
def joinDots : List String → String
  | [] => ""
  | [s] => s
  | s :: rest => s ++ "." ++ joinDots rest

/-- `current?.[part]`: property access; on primitives it yields `undefined`
(prototype properties such as string length are outside the JSON data model
and not modelled). -/
def memberGet (v : Value) (k : String) : Option Value :=
  match v with
  | .obj _ fs => lookupField fs k
  | _ => none

/-- The read loop of `getState`: walk the parts from the given root, stopping
with `none` as soon as a step is `undefined`; with no parts the root itself
is returned. -/
def readPath (root : Value) : List String → Option Value
  | [] => some root
  | k :: rest =>
      match memberGet root k with
      | some v => readPath v rest
      | none => none

/-- The write loop of `_setStateImmediate`: descend along all parts but the
last, replacing any segment that is `null`/`undefined`/non-object by a fresh
empty object (arrays, being `typeof object`, are descended into); then write
the final segment.  With an empty parts list the source evaluates
`parts[parts.length - 1]` to `undefined` and stores under the key
"undefined" at the root. -/
def writeParts (st : Fields) : List String → Value → Fields
  | [], v => setField st "undefined" v
  | [k], v => setField st k v
  | k :: k2 :: rest, v =>
      match lookupField st k with
      | some (.obj ia fs) => setField st k (.obj ia (writeParts fs (k2 :: rest) v))
      | _ => setField st k (.obj false (writeParts [] (k2 :: rest) v))

/-- Source `getState(path, defaultValue)` on a state tree (dependency
tracking is handled by the caller models): invalid paths yield the default,
otherwise the path is walked from the root object. -/
def getStateRaw (st : Fields) (path : String) (defaultValue : Value) : Value :=
  if isValidPath path then
    match readPath (.obj false st) (getPathParts path) with
    | some v => v
    | none => defaultValue
  else defaultValue

theorem lookupField_setField_self (st : Fields) (k : String) (v : Value) :
    lookupField (setField st k v) k = some v := by
  induction st with
  | nil => simp [setField, lookupField]
  | cons hd tl ih =>
      obtain ⟨k2, v2⟩ := hd
      by_cases h : k2 == k
      · simp [setField, h, lookupField]
      · simp [setField, h, lookupField, ih]

/-- Read-after-write round trip on the raw tree: writing along a non-empty
parts list and reading the same parts back yields the written value. -/
theorem readPath_writeParts (parts : List String) (st : Fields) (v : Value)
    (hne : parts ≠ []) :
    readPath (.obj false (writeParts st parts v)) parts = some v := by
  induction parts generalizing st with
  | nil => exact absurd rfl hne
  | cons k rest ih =>
      cases rest with
      | nil =>
          simp [writeParts, readPath, memberGet, lookupField_setField_self]
      | cons k2 rest2 =>
          cases hlk : lookupField st k with
          | none =>
              simp only [writeParts, hlk, readPath, memberGet, lookupField_setField_self]
              exact ih _ (List.cons_ne_nil _ _)
          | some w =>
              cases w with
              | obj ia fs =>
                  simp only [writeParts, hlk, readPath, memberGet, lookupField_setField_self]
                  exact ih _ (List.cons_ne_nil _ _)
              | null =>
                  simp only [writeParts, hlk, readPath, memberGet, lookupField_setField_self]
                  exact ih _ (List.cons_ne_nil _ _)
              | bool b =>
                  simp only [writeParts, hlk, readPath, memberGet, lookupField_setField_self]
                  exact ih _ (List.cons_ne_nil _ _)
              | num n =>
                  simp only [writeParts, hlk, readPath, memberGet, lookupField_setField_self]
                  exact ih _ (List.cons_ne_nil _ _)
              | str s =>
                  simp only [writeParts, hlk, readPath, memberGet, lookupField_setField_self]
                  exact ih _ (List.cons_ne_nil _ _)
              | sym i =>
                  simp only [writeParts, hlk, readPath, memberGet, lookupField_setField_self]
                  exact ih _ (List.cons_ne_nil _ _)

/-- Raw-tree form of the round trip, for valid paths with at least one
non-empty segment. -/
theorem getStateRaw_writeParts (st : Fields) (path : String) (v d : Value)
    (hv : isValidPath path = true) (hne : getPathParts path ≠ []) :
    getStateRaw (writeParts st (getPathParts path) v) path d = v := by
  simp [getStateRaw, hv, readPath_writeParts _ _ _ hne]

theorem lookupField_of_noDupKeys (fs : Fields) (k : String) (v : Value)
    (hnd : noDupKeys (fs.map Prod.fst) = true) (hmem : (k, v) ∈ fs) :
    lookupField fs k = some v := by
  induction fs with
  | nil => cases hmem
  | cons hd tl ih =>
      obtain ⟨k0, v0⟩ := hd
      simp only [List.map_cons, noDupKeys, Bool.and_eq_true, Bool.not_eq_true'] at hnd
      obtain ⟨hnc, hnd2⟩ := hnd
      rcases List.mem_cons.mp hmem with heq | htl
      · injection heq with h1 h2
        subst h1
        subst h2
        simp [lookupField]
      · have hkin : k ∈ tl.map Prod.fst := List.mem_map.mpr ⟨(k, v), htl, rfl⟩
        have hnotin : ¬ k0 ∈ tl.map Prod.fst := by simpa using hnc
        have hk0 : k0 ≠ k := fun h => hnotin (h ▸ hkin)
        simp only [lookupField, beq_eq_false_iff_ne.mpr hk0, if_false]
        exact ih hnd2 htl

theorem prod_snd_sizeOf_lt (kv : String × Value) : sizeOf kv.2 < sizeOf kv := by
  obtain ⟨x, y⟩ := kv
  show sizeOf y < sizeOf (x, y)
  rw [Prod.mk.sizeOf_spec]
  omega

theorem wfFields_mem (fs : Fields) (kv : String × Value)
    (hwf : wfFields fs = true) (hmem : kv ∈ fs) : wfValue kv.2 = true := by
  induction fs with
  | nil => cases hmem
  | cons hd tl ih =>
      obtain ⟨k0, v0⟩ := hd
      simp only [wfFields, Bool.and_eq_true] at hwf
      rcases List.mem_cons.mp hmem with heq | htl
      · subst heq
        exact hwf.1
      · exact ih hwf.2 htl

theorem deepEqFields_of (xs fs : Fields)
    (h : ∀ kv ∈ xs, lookupField fs kv.1 = some kv.2 ∧ deepEquals kv.2 kv.2 = true) :
    deepEqFields xs fs = true := by
  induction xs with
  | nil => simp [deepEqFields]
  | cons hd tl ih =>
      obtain ⟨k, v⟩ := hd
      have hhd := h (k, v) (List.mem_cons_self _ _)
      simp only [deepEqFields, Bool.and_eq_true]
      constructor
      · rw [hhd.1]
        exact hhd.2
      · exact ih (fun kv hkv => h kv (List.mem_cons_of_mem _ hkv))

theorem deepEquals_refl_bounded :
    ∀ (n : Nat) (v : Value), sizeOf v ≤ n → wfValue v = true → deepEquals v v = true := by
  intro n
  induction n with
  | zero =>
      intro v hsz
      cases v <;> simp at hsz
  | succ n ih =>
      intro v hsz hwf
      cases v with
      | null => simp [deepEquals]
      | bool b => simp [deepEquals]
      | num m => simp [deepEquals]
      | str s => simp [deepEquals]
      | sym i => simp [deepEquals]
      | obj ia fs =>
          simp only [wfValue, Bool.and_eq_true] at hwf
          simp only [deepEquals, Bool.and_eq_true, beq_self_eq_true, true_and]
          apply deepEqFields_of
          intro kv hkv
          refine ⟨?_, ?_⟩
          · exact lookupField_of_noDupKeys fs kv.1 kv.2 hwf.1 (by
              cases kv
              exact hkv)
          · have hkvsz : sizeOf kv < sizeOf fs := List.sizeOf_lt_of_mem hkv
            have hvsz : sizeOf kv.2 < sizeOf kv := prod_snd_sizeOf_lt kv
            apply ih
            · have hobj : sizeOf (Value.obj ia fs) = 1 + sizeOf ia + sizeOf fs := by
                simp
              omega
            · exact wfFields_mem fs kv hwf.2 hkv

/-- Reflexivity of `deepEquals` on well-formed values (a JS value always
deep-equals itself; the source short-circuits this with `a === b`). -/
theorem deepEquals_refl (v : Value) (hwf : wfValue v = true) :
    deepEquals v v = true :=
  deepEquals_refl_bounded (sizeOf v) v (le_refl _) hwf

/-! ## StateManager

The StateManager is modelled as a first-order state record plus an event
log.  Callbacks are defunctionalized: a callback is a numeric id, its body
is described by `CbAct` (external and internal subscriber callbacks may
themselves call setState), and for internal subscribers the set of paths a
given execution records into the fresh tracking scope is supplied by
`CbEnv.reads` (abstracting the getState calls the callback makes while the
scope is active).  Timers are modelled by invoking the scheduled flush as an
explicit separate step. -/

/-- One JS generic association-list lookup (Map.get / object access). -/
def alLookup {β : Type} : List (String × β) → String → Option β
  | [], _ => none
  | (k2, v) :: rest, k => if k2 == k then some v else alLookup rest k

/-- JS Map.set: overwrite in place (the key keeps its insertion position) or
append a new entry at the end. -/
def alSet {β : Type} : List (String × β) → String → β → List (String × β)
  | [], k, v => [(k, v)]
  | (k2, v2) :: rest, k, v =>
      if k2 == k then (k2, v) :: rest else (k2, v2) :: alSet rest k v

/-- Nat-keyed association lookup (run-count bookkeeping). -/
def nlLookup {β : Type} : List (Nat × β) → Nat → Option β
  | [], _ => none
  | (k2, v) :: rest, k => if k2 == k then some v else nlLookup rest k

def nlSet {β : Type} : List (Nat × β) → Nat → β → List (Nat × β)
  | [], k, v => [(k, v)]
  | (k2, v2) :: rest, k, v =>
      if k2 == k then (k2, v) :: rest else (k2, v2) :: nlSet rest k v

/-- One entry of the external subscriber registry: the record created by
`subscribe` — `{callback, hierarchical}` — with `id` standing for the object
identity of the record and `cb` for the callback function it holds. -/
structure SubRec where
  id : Nat
  cb : Nat
  hierarchical : Bool
deriving Repr, DecidableEq

/-- The StateManager instance state (the fields of the source constructor
that the claims exercise; `batchTimeout` is replaced by explicit flush
steps, and `middleware` is empty in every scenario under study). -/
structure SM where
  state : Fields
  internalSubs : List (String × List Nat)
  externalSubs : List (String × List SubRec)
  isUpdating : Bool
  currentlyUpdating : List String
  batchingEnabled : Bool
  batchDelayMs : Nat
  maxBatchSize : Nat
  batchUpdateInProgress : Bool
  updateQueue : List (String × Value)
  runCounts : List (Nat × Nat)
  nextSubId : Nat

/-- Constructor defaults of the source (`new StateManager({}, [])`). -/
def SM.initial : SM :=
  { state := [], internalSubs := [], externalSubs := [], isUpdating := false,
    currentlyUpdating := [], batchingEnabled := true, batchDelayMs := 0,
    maxBatchSize := 50, batchUpdateInProgress := false, updateQueue := [],
    runCounts := [], nextSubId := 0 }

/-- Observable events of a StateManager run: state-tree writes, internal
subscriber invocations, external subscriber invocations (with the argument
triple the source passes), and circular-update warnings. -/
inductive Ev where
  | write (path : String) (value : Value)
  | internalCb (cb : Nat) (path : String)
  | externalCb (cb : Nat) (newValue oldValue : Value) (changedPath : String)
  | warn (path : String)

/-- Defunctionalized callback body: either a passive observer or a callback
that issues a (nested) setState. -/
inductive CbAct where
  | record
  | doSetState (path : String) (value : Value)

/-- Callback environment: `act cb` is the body of callback `cb`; `reads cb n`
is the list of paths recorded into the fresh tracking scope during the n-th
execution of internal callback `cb`. -/
structure CbEnv where
  act : Nat → CbAct
  reads : Nat → Nat → List String

def runCountOf (sm : SM) (cb : Nat) : Nat := (nlLookup sm.runCounts cb).getD 0

def bumpRun (sm : SM) (cb : Nat) : SM :=
  { sm with runCounts := nlSet sm.runCounts cb (runCountOf sm cb + 1) }

/-- `_setStateImmediate` specialized to a call made while a notification
phase is already in progress (`this.isUpdating === true`): the value passes
the (empty) middleware pipeline and the deep-equality guard, is written to
the tree, and the notification block is skipped because of the
`if (!this.isUpdating)` test. -/
def writeOnly (sm : SM) (path : String) (value : Value) : SM × List Ev :=
  if deepEquals (getStateRaw sm.state path .null) value then (sm, [])
  else ({ sm with state := writeParts sm.state (getPathParts path) value },
        [.write path value])

/-- `setState` as invoked from inside a subscriber callback, i.e. while
`this.isUpdating` is true.  In that situation a queued update is only
queued: the overflow flush inside `_queueUpdate` hits the
`batchUpdateInProgress` guard (batching with a positive delay implies the
running notification was started by a flush, which set the flag) and
returns without processing. -/
def setStateNested (sm : SM) (path : String) (value : Value) : SM × List Ev :=
  if isValidPath path = false then (sm, [])
  else if sm.currentlyUpdating.contains path then (sm, [.warn path])
  else if sm.batchingEnabled = true ∧ 0 < sm.batchDelayMs then
    ({ sm with updateQueue := sm.updateQueue ++ [(path, value)] }, [])
  else writeOnly sm path value

/-- Execute a callback body (always inside a notification phase). -/
def runCbAct (sm : SM) : CbAct → SM × List Ev
  | .record => (sm, [])
  | .doSetState p v => setStateNested sm p v

/-- `subscribeInternal`: append the callback to the path entry, creating the
entry if missing. -/
def subscribeInternalOp (sm : SM) (path : String) (cb : Nat) : SM :=
  match alLookup sm.internalSubs path with
  | some l => { sm with internalSubs := alSet sm.internalSubs path (l ++ [cb]) }
  | none => { sm with internalSubs := sm.internalSubs ++ [(path, [cb])] }

/-- The re-tracking step of `_triggerPathSubscribers`: for one discovered
path, add a binding unless the callback is already bound there
(`if (!existingSubs || !existingSubs.has(callback)) subscribeInternal`). -/
def rebindOne (sm : SM) (cb : Nat) (newPath : String) : SM :=
  match alLookup sm.internalSubs newPath with
  | some l => if l.contains cb then sm else subscribeInternalOp sm newPath cb
  | none => subscribeInternalOp sm newPath cb

/-- One internal callback execution inside `_triggerPathSubscribers`: open a
fresh tracking scope, run the body, then bind the callback to every path
recorded in the scope that it was not already bound to. -/
def runOneInternal (env : CbEnv) (sm : SM) (path : String) (cb : Nat) :
    SM × List Ev :=
  let run := runCountOf sm cb
  let (sm1, evs) := runCbAct sm (env.act cb)
  let sm2 := (env.reads cb run).foldl (fun acc p => rebindOne acc cb p) sm1
  (bumpRun sm2 cb, .internalCb cb path :: evs)

/-- `_triggerPathSubscribers(path)`: snapshot the subscriber set for the
path (`new Set(subs)`) and run each callback with dynamic re-tracking. -/
def triggerPathSubscribers (env : CbEnv) (sm : SM) (path : String) :
    SM × List Ev :=
  match alLookup sm.internalSubs path with
  | none => (sm, [])
  | some cbs =>
      cbs.foldl (fun acc cb =>
        let r := runOneInternal env acc.1 path cb
        (r.1, acc.2 ++ r.2)) (sm, [])

/-- The root-ward ancestor paths of `_notifySubscribers`: for
`i = parts.length - 1` down to `1`, the join of the first `i` parts. -/
def ancestorPaths (parts : List String) : List String :=
  ((List.range parts.length).reverse.filter (fun i => 0 < i)).map
    (fun i => joinDots (parts.take i))

/-- `new Set([...a, ...b])` on key lists: a's keys then b's unseen keys. -/
def keysUnion (a b : List String) : List String :=
  a ++ b.filter (fun k => !a.contains k)

/-- `_notifySubscribers(path)`: exact path, then strict ancestors root-ward,
then every currently registered subscriber path (internal or external keys)
that extends `path + "."` (the new/old values the source passes along are
unused by `_triggerPathSubscribers`). -/
def notifySubscribers (env : CbEnv) (sm : SM) (path : String) : SM × List Ev :=
  let r1 := triggerPathSubscribers env sm path
  let r2 := (ancestorPaths (getPathParts path)).foldl (fun acc p =>
      let r := triggerPathSubscribers env acc.1 p
      (r.1, acc.2 ++ r.2)) r1
  let pre := path ++ "."
  let allPaths := keysUnion (r2.1.internalSubs.map Prod.fst)
      (r2.1.externalSubs.map Prod.fst)
  (allPaths.filter (fun p => jsStartsWith p pre && p != path)).foldl (fun acc p =>
      let r := triggerPathSubscribers env acc.1 p
      (r.1, acc.2 ++ r.2)) r2

/-- `_notifyExternalSubscribers(changedPath, newValue, oldValue)`: every
subscription record is tested; hierarchical records fire on exact match or
on any changed path extending `subscribedPath + "."`, exact records only on
exact match; a firing record receives `(newValue, oldValue, changedPath)` —
the values of the changed path itself. -/
def notifyExternalSubscribers (env : CbEnv) (sm : SM) (changedPath : String)
    (newValue oldValue : Value) : SM × List Ev :=
  sm.externalSubs.foldl (fun acc entry =>
    entry.2.foldl (fun acc2 r =>
      let shouldNotify := if r.hierarchical
        then changedPath == entry.1 || jsStartsWith changedPath (entry.1 ++ ".")
        else changedPath == entry.1
      if shouldNotify then
        let r2 := runCbAct acc2.1 (env.act r.cb)
        (r2.1, acc2.2 ++ [.externalCb r.cb newValue oldValue changedPath] ++ r2.2)
      else acc2) acc) (sm, [])

/-- The notification block of `_setStateImmediate` (entered only when no
notification phase is running): mark the path as currently updating, notify
internal then external subscribers, then clear the marks.  `oldValue` is the
value read before the write. -/
def notifyPhase (env : CbEnv) (sm1 : SM) (path : String) (value oldValue : Value) :
    SM × List Ev :=
  let cu := if sm1.currentlyUpdating.contains path then sm1.currentlyUpdating
    else sm1.currentlyUpdating ++ [path]
  let sm2 := { sm1 with isUpdating := true, currentlyUpdating := cu }
  let rI := notifySubscribers env sm2 path
  let rE := notifyExternalSubscribers env rI.1 path value oldValue
  let smE := rE.1
  ({ smE with currentlyUpdating := smE.currentlyUpdating.erase path, isUpdating := false },
    .write path value :: (rI.2 ++ rE.2))

/-- `_setStateImmediate` at top level: read the old value, run the (empty)
middleware pipeline, stop if the final value deep-equals the old one,
otherwise write the tree and — when no notification phase is running —
run the notification block before returning. -/
def setStateImmediate (env : CbEnv) (sm : SM) (path : String) (value : Value) :
    SM × List Ev :=
  if deepEquals (getStateRaw sm.state path .null) value then (sm, [])
  else
    let sm1 := { sm with state := writeParts sm.state (getPathParts path) value }
    if sm1.isUpdating then (sm1, [.write path value])
    else notifyPhase env sm1 path value (getStateRaw sm.state path .null)

/-- The de-duplication of `_processBatchedUpdates`: a JS Map keyed by path —
key order is first insertion, value is the last update for the path. -/
def keysFirstOcc (l : List (String × Value)) : List String :=
  l.foldl (fun acc pv => if acc.contains pv.1 then acc else acc ++ [pv.1]) []

def lastWrite (l : List (String × Value)) (p : String) : Option Value :=
  (l.reverse.find? (fun pv => pv.1 == p)).map (fun pv => pv.2)

def pathGroups (batch : List (String × Value)) : List (String × Value) :=
  (keysFirstOcc batch).filterMap (fun p => (lastWrite batch p).map (fun v => (p, v)))

/-- `_processBatchedUpdates`: drain up to `maxBatchSize` queued entries,
de-duplicate by path (last write wins) and apply each through
`_setStateImmediate`.  The trailing `setTimeout` re-flush for a non-empty
remainder is a separate later task, modelled as another explicit call. -/
def processBatchedUpdates (env : CbEnv) (sm : SM) : SM × List Ev :=
  if sm.batchUpdateInProgress = true ∨ sm.updateQueue.length = 0 then (sm, [])
  else
    let batchSize := min sm.maxBatchSize sm.updateQueue.length
    let batch := sm.updateQueue.take batchSize
    let sm1 := { sm with batchUpdateInProgress := true, updateQueue := sm.updateQueue.drop batchSize }
    let r := (pathGroups batch).foldl (fun acc pv =>
        let s := setStateImmediate env acc.1 pv.1 pv.2
        (s.1, acc.2 ++ s.2)) (sm1, [])
    ({ r.1 with batchUpdateInProgress := false }, r.2)

/-- `_queueUpdate`: push the update; a queue longer than twice the max batch
size forces an immediate flush, otherwise a timer flush is scheduled (the
timer fires as a later explicit `processBatchedUpdates` step). -/
def queueUpdate (env : CbEnv) (sm : SM) (path : String) (value : Value) :
    SM × List Ev :=
  let sm1 := { sm with updateQueue := sm.updateQueue ++ [(path, value)] }
  if sm1.updateQueue.length > sm1.maxBatchSize * 2 then processBatchedUpdates env sm1
  else (sm1, [])

/-- Source `setState(path, value)` (top level, outside any notification
phase): invalid paths are dropped silently by the short-circuit
`!isValidPath(path) || this._hasCircularUpdate(path)`; paths currently
mid-notification are dropped with a warning; batching with a positive delay
queues; otherwise the write is applied immediately. -/
def setState (env : CbEnv) (sm : SM) (path : String) (value : Value) :
    SM × List Ev :=
  if isValidPath path = false then (sm, [])
  else if sm.currentlyUpdating.contains path then (sm, [.warn path])
  else if sm.batchingEnabled = true ∧ 0 < sm.batchDelayMs then
    queueUpdate env sm path value
  else setStateImmediate env sm path value

/-- Options object accepted by `configureBatching`. -/
structure BatchOptions where
  maxBatchSize : Option Nat := none
  batchDelayMs : Option Nat := none
  enabled : Option Bool := none

/-- `configureBatching(options)`: `maxBatchSize` via `||` (so a passed 0 is
falsy and keeps the old value), `batchDelayMs` via an `!== undefined` test,
`enabled` only when present. -/
def configureBatching (sm : SM) (o : BatchOptions) : SM :=
  { sm with
    maxBatchSize := (match o.maxBatchSize with
      | some n => if n = 0 then sm.maxBatchSize else n
      | none => sm.maxBatchSize),
    batchDelayMs := (o.batchDelayMs).getD sm.batchDelayMs,
    batchingEnabled := (o.enabled).getD sm.batchingEnabled }

/-- `subscribe(path, callback, hierarchical)`: create a fresh subscription
record and add it to the path entry (creating the entry if missing);
returns the identity of the record the unsubscribe closure captures. -/
def subscribeOp (sm : SM) (path : String) (cb : Nat) (hierarchical : Bool) :
    SM × Nat :=
  let r : SubRec := ⟨sm.nextSubId, cb, hierarchical⟩
  ({ sm with
      externalSubs := (match alLookup sm.externalSubs path with
        | some l => alSet sm.externalSubs path (l ++ [r])
        | none => sm.externalSubs ++ [(path, [r])]),
      nextSubId := sm.nextSubId + 1 },
    sm.nextSubId)

/-- The unsubscribe closure returned by `subscribe`: delete exactly the
captured record from the path entry (record identities are unique, so the
Set.delete is a filter on the identity) and drop the entry when it becomes
empty. -/
def unsubscribeOp (sm : SM) (path : String) (sid : Nat) : SM :=
  match alLookup sm.externalSubs path with
  | none => sm
  | some l =>
      let l2 := l.filter (fun r => r.id ≠ sid)
      if l2 = [] then
        { sm with externalSubs := sm.externalSubs.filter (fun e => e.1 ≠ path) }
      else { sm with externalSubs := alSet sm.externalSubs path l2 }

end Juris

/-! ## Concrete scenario values shared inside single claims -/

namespace Juris

/-- A passive callback environment: every callback only records its
invocation and reads nothing. -/
def passiveEnv : CbEnv := ⟨fun _ => .record, fun _ _ => []⟩

/-- Is an event a subscriber invocation (internal or external)? -/
def isCbEv : Ev → Bool
  | .internalCb _ _ => true
  | .externalCb _ _ _ _ => true
  | _ => false

def isWriteEv : Ev → Bool
  | .write _ _ => true
  | _ => false

def isWarnEv : Ev → Bool
  | .warn _ => true
  | _ => false

/-- Projection of the external subscriber invocations out of an event log. -/
def externalCalls : List Ev → List (Nat × Value × Value × String)
  | [] => []
  | .externalCb c nv ov p :: rest => (c, nv, ov, p) :: externalCalls rest
  | _ :: rest => externalCalls rest

end Juris

namespace Juris

/-! ## General lemmas about the registry and the event log -/

theorem alLookup_alSet_self {β : Type} (l : List (String × β)) (k : String) (v : β) :
    alLookup (alSet l k v) k = some v := by
  induction l with
  | nil => simp [alSet, alLookup]
  | cons hd tl ih =>
      obtain ⟨k2, v2⟩ := hd
      by_cases h : k2 == k
      · simp [alSet, h, alLookup]
      · simp [alSet, h, alLookup, ih]

theorem alSet_self {β : Type} (l : List (String × β)) (k : String) (v : β)
    (h : alLookup l k = some v) : alSet l k v = l := by
  induction l with
  | nil => simp [alLookup] at h
  | cons hd tl ih =>
      obtain ⟨k2, v2⟩ := hd
      by_cases hk : k2 == k
      · simp only [alLookup, hk, if_true, Option.some.injEq] at h
        simp [alSet, hk, h]
      · simp only [alLookup, hk, Bool.false_eq_true, if_false] at h
        simp [alSet, hk, ih h]

theorem alLookup_none_keys {β : Type} (l : List (String × β)) (k : String)
    (h : alLookup l k = none) : ∀ e ∈ l, e.1 ≠ k := by
  induction l with
  | nil => intro e he; cases he
  | cons hd tl ih =>
      obtain ⟨k2, v2⟩ := hd
      intro e he
      by_cases hk : k2 == k
      · simp [alLookup, hk] at h
      · rcases List.mem_cons.mp he with heq | htl
        · subst heq
          simpa using hk
        · simp only [alLookup, hk, Bool.false_eq_true, if_false] at h
          exact ih h e htl

theorem alLookup_append_of_none {β : Type} (l : List (String × β)) (k : String) (x : β)
    (h : alLookup l k = none) : alLookup (l ++ [(k, x)]) k = some x := by
  induction l with
  | nil => simp [alLookup]
  | cons hd tl ih =>
      obtain ⟨k2, v2⟩ := hd
      by_cases hk : k2 == k
      · simp [alLookup, hk] at h
      · simp only [List.cons_append, alLookup, hk, Bool.false_eq_true, if_false] at h ⊢
        exact ih h

theorem filter_append_key_restore {β : Type} (l : List (String × β)) (k : String) (x : β)
    (h : alLookup l k = none) :
    (l ++ [(k, x)]).filter (fun e => e.1 ≠ k) = l := by
  have hkeys := alLookup_none_keys l k h
  induction l with
  | nil => simp
  | cons hd tl ih =>
      obtain ⟨k2, v2⟩ := hd
      have hk2 : k2 ≠ k := hkeys (k2, v2) (List.mem_cons_self _ _)
      by_cases hb : k2 == k
      · exact absurd (by simpa using hb) hk2
      · simp only [alLookup, hb, Bool.false_eq_true, if_false] at h
        simp only [List.cons_append, List.filter_cons]
        rw [if_pos (by simpa using hk2)]
        rw [ih h (fun e he => hkeys e (List.mem_cons_of_mem _ he))]

theorem externalCalls_append (l1 l2 : List Ev) :
    externalCalls (l1 ++ l2) = externalCalls l1 ++ externalCalls l2 := by
  induction l1 with
  | nil => rfl
  | cons e t ih =>
      cases e <;> simp [externalCalls, ih]

/-- A generic preservation principle for the event-accumulating folds of the
notification code. -/
theorem foldl_pred {α β : Type} (R : β → β → Prop)
    (htrans : ∀ a b c, R a b → R b c → R a c) (hrefl : ∀ a, R a a)
    (f : β → α → β) (h : ∀ acc x, R acc (f acc x)) :
    ∀ (l : List α) (acc : β), R acc (l.foldl f acc) := by
  intro l
  induction l with
  | nil => intro acc; exact hrefl acc
  | cons x t ih =>
      intro acc
      exact htrans _ _ _ (h acc x) (ih (f acc x))

end Juris

namespace Juris

/-! ## Behaviour of nested setState calls (issued during a notification) -/

/-- A nested setState never touches the subscriber registries or the run
counters, and its event log never contains a subscriber invocation: the
`if (!this.isUpdating)` test in `_setStateImmediate` skips the whole
notification block. -/
theorem setStateNested_spec (sm : SM) (p : String) (v : Value) :
    (setStateNested sm p v).1.internalSubs = sm.internalSubs ∧
    (setStateNested sm p v).1.externalSubs = sm.externalSubs ∧
    (setStateNested sm p v).1.runCounts = sm.runCounts ∧
    (setStateNested sm p v).1.currentlyUpdating = sm.currentlyUpdating ∧
    (setStateNested sm p v).1.isUpdating = sm.isUpdating ∧
    (∀ e ∈ (setStateNested sm p v).2, isCbEv e = false) := by
  by_cases h1 : isValidPath p = false
  · simp [setStateNested, h1]
  · by_cases h2 : p ∈ sm.currentlyUpdating
    · simp [setStateNested, h1, h2, isCbEv]
    · by_cases h3 : sm.batchingEnabled = true ∧ 0 < sm.batchDelayMs
      · simp [setStateNested, h1, h2, h3]
      · by_cases h4 : deepEquals (getStateRaw sm.state p .null) v = true
        · simp [setStateNested, writeOnly, h1, h2, h3, h4]
        · simp [setStateNested, writeOnly, h1, h2, h3, h4, isCbEv]

theorem runCbAct_spec (sm : SM) (a : CbAct) :
    (runCbAct sm a).1.internalSubs = sm.internalSubs ∧
    (runCbAct sm a).1.externalSubs = sm.externalSubs ∧
    (runCbAct sm a).1.runCounts = sm.runCounts ∧
    (runCbAct sm a).1.currentlyUpdating = sm.currentlyUpdating ∧
    (runCbAct sm a).1.isUpdating = sm.isUpdating ∧
    (∀ e ∈ (runCbAct sm a).2, isCbEv e = false) := by
  cases a with
  | record => exact ⟨rfl, rfl, rfl, rfl, rfl, by intro e he; cases he⟩
  | doSetState p v => exact setStateNested_spec sm p v

theorem externalCalls_eq_nil_of_noCb (l : List Ev) (h : ∀ e ∈ l, isCbEv e = false) :
    externalCalls l = [] := by
  induction l with
  | nil => rfl
  | cons e t ih =>
      have he := h e (List.mem_cons_self _ _)
      cases e with
      | externalCb c n o p => simp [isCbEv] at he
      | write p v => exact ih (fun x hx => h x (List.mem_cons_of_mem _ hx))
      | internalCb c p => exact ih (fun x hx => h x (List.mem_cons_of_mem _ hx))
      | warn p => exact ih (fun x hx => h x (List.mem_cons_of_mem _ hx))

end Juris

namespace Juris

/-! ## Passive observers: notification phases do not disturb the manager -/

/-- An environment whose callbacks are all passive observers. -/
def passive (env : CbEnv) : Prop := ∀ c, env.act c = CbAct.record

/-- Equality of every SM component except the internal subscriber registry
and the run counters (the only parts a passive notification phase may
touch, through dynamic re-tracking). -/
def coreEq (a b : SM) : Prop :=
  a.state = b.state ∧ a.currentlyUpdating = b.currentlyUpdating ∧
  a.isUpdating = b.isUpdating ∧ a.batchingEnabled = b.batchingEnabled ∧
  a.batchDelayMs = b.batchDelayMs ∧ a.maxBatchSize = b.maxBatchSize ∧
  a.batchUpdateInProgress = b.batchUpdateInProgress ∧
  a.updateQueue = b.updateQueue ∧ a.externalSubs = b.externalSubs ∧
  a.nextSubId = b.nextSubId

theorem coreEq_refl (a : SM) : coreEq a a :=
  ⟨rfl, rfl, rfl, rfl, rfl, rfl, rfl, rfl, rfl, rfl⟩

theorem coreEq_trans (a b c : SM) (h1 : coreEq a b) (h2 : coreEq b c) : coreEq a c := by
  obtain ⟨x1, x2, x3, x4, x5, x6, x7, x8, x9, x10⟩ := h1
  obtain ⟨y1, y2, y3, y4, y5, y6, y7, y8, y9, y10⟩ := h2
  exact ⟨x1.trans y1, x2.trans y2, x3.trans y3, x4.trans y4, x5.trans y5,
    x6.trans y6, x7.trans y7, x8.trans y8, x9.trans y9, x10.trans y10⟩

theorem subscribeInternalOp_coreEq (sm : SM) (p : String) (cb : Nat) :
    coreEq sm (subscribeInternalOp sm p cb) := by
  unfold subscribeInternalOp
  cases alLookup sm.internalSubs p <;>
    exact ⟨rfl, rfl, rfl, rfl, rfl, rfl, rfl, rfl, rfl, rfl⟩

end Juris

namespace Juris

theorem rebindOne_coreEq (sm : SM) (cb : Nat) (q : String) :
    coreEq sm (rebindOne sm cb q) := by
  unfold rebindOne
  cases alLookup sm.internalSubs q with
  | none => exact subscribeInternalOp_coreEq sm q cb
  | some l =>
      by_cases h : l.contains cb
      · simp only [h, if_true]
        exact coreEq_refl sm
      · simp only [h, Bool.false_eq_true, if_false]
        exact subscribeInternalOp_coreEq sm q cb

theorem bumpRun_coreEq (sm : SM) (cb : Nat) : coreEq sm (bumpRun sm cb) :=
  ⟨rfl, rfl, rfl, rfl, rfl, rfl, rfl, rfl, rfl, rfl⟩

theorem runCbAct_coreEq_of_record (sm : SM) : coreEq sm (runCbAct sm .record).1 :=
  coreEq_refl sm

theorem runOneInternal_passive_coreEq (env : CbEnv) (sm : SM) (path : String) (cb : Nat)
    (hp : passive env) : coreEq sm (runOneInternal env sm path cb).1 := by
  unfold runOneInternal
  rw [hp cb]
  have hfold : coreEq sm
      ((env.reads cb (runCountOf sm cb)).foldl (fun acc p => rebindOne acc cb p) sm) := by
    have := foldl_pred (fun a b : SM => coreEq a b) coreEq_trans coreEq_refl
      (fun acc p => rebindOne acc cb p)
      (fun acc p => rebindOne_coreEq acc cb p)
      (env.reads cb (runCountOf sm cb)) sm
    exact this
  exact coreEq_trans _ _ _ hfold (bumpRun_coreEq _ cb)

theorem triggerPathSubscribers_passive_coreEq (env : CbEnv) (sm : SM) (path : String)
    (hp : passive env) : coreEq sm (triggerPathSubscribers env sm path).1 := by
  unfold triggerPathSubscribers
  cases alLookup sm.internalSubs path with
  | none => exact coreEq_refl sm
  | some cbs =>
      have := foldl_pred (fun a b : SM × List Ev => coreEq a.1 b.1)
        (fun a b c h1 h2 => coreEq_trans _ _ _ h1 h2)
        (fun a => coreEq_refl a.1)
        (fun acc cb =>
          let r := runOneInternal env acc.1 path cb
          (r.1, acc.2 ++ r.2))
        (fun acc cb => runOneInternal_passive_coreEq env acc.1 path cb hp)
        cbs (sm, [])
      exact this

theorem foldl_trigger_coreEq (env : CbEnv) (hp : passive env) (l : List String)
    (acc : SM × List Ev) :
    coreEq acc.1 (l.foldl (fun acc p =>
      let r := triggerPathSubscribers env acc.1 p
      (r.1, acc.2 ++ r.2)) acc).1 :=
  foldl_pred (fun a b : SM × List Ev => coreEq a.1 b.1)
    (fun _ _ _ hx hy => coreEq_trans _ _ _ hx hy)
    (fun a => coreEq_refl a.1)
    (fun acc p =>
      let r := triggerPathSubscribers env acc.1 p
      (r.1, acc.2 ++ r.2))
    (fun acc p => triggerPathSubscribers_passive_coreEq env acc.1 p hp)
    l acc

theorem notifySubscribers_passive_coreEq (env : CbEnv) (sm : SM) (path : String)
    (hp : passive env) : coreEq sm (notifySubscribers env sm path).1 := by
  unfold notifySubscribers
  exact coreEq_trans _ _ _
    (coreEq_trans _ _ _ (triggerPathSubscribers_passive_coreEq env sm path hp)
      (foldl_trigger_coreEq env hp _ _))
    (foldl_trigger_coreEq env hp _ _)

theorem notifyExternalSubscribers_passive_fst (env : CbEnv) (sm : SM)
    (changedPath : String) (nv ov : Value) (hp : passive env) :
    (notifyExternalSubscribers env sm changedPath nv ov).1 = sm := by
  unfold notifyExternalSubscribers
  have inner : ∀ (entry : String × List SubRec) (acc : SM × List Ev),
      acc.1 = (entry.2.foldl (fun acc2 r =>
        let shouldNotify := if r.hierarchical
          then changedPath == entry.1 || jsStartsWith changedPath (entry.1 ++ ".")
          else changedPath == entry.1
        if shouldNotify then
          let r2 := runCbAct acc2.1 (env.act r.cb)
          (r2.1, acc2.2 ++ [.externalCb r.cb nv ov changedPath] ++ r2.2)
        else acc2) acc).1 := by
    intro entry acc
    exact foldl_pred (fun a b : SM × List Ev => a.1 = b.1)
      (fun _ _ _ hx hy => hx.trans hy) (fun a => rfl)
      (fun acc2 r =>
        let shouldNotify := if r.hierarchical
          then changedPath == entry.1 || jsStartsWith changedPath (entry.1 ++ ".")
          else changedPath == entry.1
        if shouldNotify then
          let r2 := runCbAct acc2.1 (env.act r.cb)
          (r2.1, acc2.2 ++ [.externalCb r.cb nv ov changedPath] ++ r2.2)
        else acc2)
      (fun acc2 r => by
        dsimp only
        split <;> split
        · rw [hp r.cb]
          rfl
        · rfl
        · rw [hp r.cb]
          rfl
        · rfl)
      entry.2 acc
  exact (foldl_pred (fun a b : SM × List Ev => a.1 = b.1)
    (fun _ _ _ hx hy => hx.trans hy) (fun a => rfl)
    (fun acc entry =>
      entry.2.foldl (fun acc2 r =>
        let shouldNotify := if r.hierarchical
          then changedPath == entry.1 || jsStartsWith changedPath (entry.1 ++ ".")
          else changedPath == entry.1
        if shouldNotify then
          let r2 := runCbAct acc2.1 (env.act r.cb)
          (r2.1, acc2.2 ++ [.externalCb r.cb nv ov changedPath] ++ r2.2)
        else acc2) acc)
    (fun acc entry => inner entry acc)
    sm.externalSubs (sm, [])).symm

end Juris

namespace Juris

/-- `_setStateImmediate` with a deep-equal value is a no-op (the middleware
pipeline is empty, so the final value is the argument). -/
theorem setStateImmediate_noop (env : CbEnv) (sm : SM) (p : String) (v : Value)
    (h : deepEquals (getStateRaw sm.state p .null) v = true) :
    setStateImmediate env sm p v = (sm, []) := by
  unfold setStateImmediate
  rw [h]
  rw [if_pos rfl]

theorem notifyPhase_passive (env : CbEnv) (sm1 : SM) (p : String) (v ov : Value)
    (hp : passive env) (hcu : p ∉ sm1.currentlyUpdating) :
    (notifyPhase env sm1 p v ov).1.state = sm1.state ∧
    (notifyPhase env sm1 p v ov).1.currentlyUpdating = sm1.currentlyUpdating ∧
    (notifyPhase env sm1 p v ov).1.isUpdating = false ∧
    (notifyPhase env sm1 p v ov).1.batchingEnabled = sm1.batchingEnabled ∧
    (notifyPhase env sm1 p v ov).1.batchDelayMs = sm1.batchDelayMs ∧
    (notifyPhase env sm1 p v ov).1.externalSubs = sm1.externalSubs ∧
    (notifyPhase env sm1 p v ov).1.updateQueue = sm1.updateQueue := by
  have hcont : (sm1.currentlyUpdating.contains p) = false := by simpa using hcu
  unfold notifyPhase
  rw [hcont]
  simp only [Bool.false_eq_true, if_false]
  rw [notifyExternalSubscribers_passive_fst env _ p v ov hp]
  obtain ⟨i1, i2, i3, i4, i5, i6, i7, i8, i9, i10⟩ :=
    notifySubscribers_passive_coreEq env
      { sm1 with isUpdating := true, currentlyUpdating := sm1.currentlyUpdating ++ [p] } p hp
  refine ⟨?_, ?_, trivial, ?_, ?_, ?_, ?_⟩
  · rw [← i1]
  · rw [← i2]
    show (sm1.currentlyUpdating ++ [p]).erase p = sm1.currentlyUpdating
    rw [List.erase_append_right _ hcu]
    simp
  · rw [← i4]
  · rw [← i5]
  · rw [← i9]
  · rw [← i8]

/-- Top-level `_setStateImmediate` on a changed value, with passive
observers: the tree is written, notifications run to completion, and the
transient `isUpdating` / `currentlyUpdating` marks are restored before the
call returns. -/
theorem setStateImmediate_passive (env : CbEnv) (sm : SM) (p : String) (v : Value)
    (hp : passive env) (hiu : sm.isUpdating = false)
    (hcu : p ∉ sm.currentlyUpdating)
    (hne : deepEquals (getStateRaw sm.state p .null) v = false) :
    (setStateImmediate env sm p v).1.state = writeParts sm.state (getPathParts p) v ∧
    (setStateImmediate env sm p v).1.currentlyUpdating = sm.currentlyUpdating ∧
    (setStateImmediate env sm p v).1.isUpdating = false ∧
    (setStateImmediate env sm p v).1.batchingEnabled = sm.batchingEnabled ∧
    (setStateImmediate env sm p v).1.batchDelayMs = sm.batchDelayMs ∧
    (setStateImmediate env sm p v).1.externalSubs = sm.externalSubs ∧
    (setStateImmediate env sm p v).1.updateQueue = sm.updateQueue := by
  unfold setStateImmediate
  rw [hne]
  rw [if_neg Bool.false_ne_true]
  have hsm1iu : ({ sm with state := writeParts sm.state (getPathParts p) v } : SM).isUpdating
      = false := hiu
  rw [hsm1iu]
  rw [if_neg Bool.false_ne_true]
  exact notifyPhase_passive env _ p v _ hp hcu

/-- Top-level `setState` dispatch under a valid, non-circular path in
non-batched mode reaches `_setStateImmediate`. -/
theorem setState_immediate_dispatch (env : CbEnv) (sm : SM) (p : String) (v : Value)
    (hv : isValidPath p = true) (hcu : p ∉ sm.currentlyUpdating)
    (hb : ¬(sm.batchingEnabled = true ∧ 0 < sm.batchDelayMs)) :
    setState env sm p v = setStateImmediate env sm p v := by
  unfold setState
  rw [hv]
  rw [if_neg (fun h => Bool.noConfusion h)]
  have hcont : (sm.currentlyUpdating.contains p) = false := by simpa using hcu
  rw [hcont]
  rw [if_neg Bool.false_ne_true]
  rw [if_neg hb]

end Juris

namespace Juris

/-- **C5, counterexample.** The claim as stated fails on the code: (a) for
the path ".", which `isValidPath` accepts but whose dot-split has no
non-empty segment, `setState(".", 1); setState(".", 2)` stores under the
key "undefined" while `getState(".")` returns the whole root object, so the
read-back is not 2; (b) for two deep-equal but distinct object values
(permuted key order), the second `setState` is a no-op and `getState`
returns the first object, not the second. -/
theorem c5_counterexample :
    (isValidPath "." = true ∧
      getStateRaw (setState passiveEnv
          (setState passiveEnv SM.initial "." (.num 1)).1 "." (.num 2)).1.state
        "." .null = .obj false [("undefined", .num 2)] ∧
      Value.obj false [("undefined", .num 2)] ≠ .num 2) ∧
    (deepEquals (.obj false [("a", .num 1), ("b", .num 2)])
        (.obj false [("b", .num 2), ("a", .num 1)]) = true ∧
      (Value.obj false [("a", .num 1), ("b", .num 2)]) ≠
        (.obj false [("b", .num 2), ("a", .num 1)]) ∧
      getStateRaw (setState passiveEnv
          (setState passiveEnv SM.initial "x"
            (.obj false [("a", .num 1), ("b", .num 2)])).1 "x"
          (.obj false [("b", .num 2), ("a", .num 1)])).1.state "x" .null =
        .obj false [("a", .num 1), ("b", .num 2)]) := by
  refine ⟨⟨rfl, rfl, fun h => Value.noConfusion h⟩, ⟨rfl, ?_, rfl⟩⟩
  intro h
  injection h with h1 h2
  injection h2 with hh ht
  injection hh with hk hv
  exact absurd hk (by decide)

/-- **C5 (amended).** For every valid path with at least one non-empty
segment, outside any notification of that path, in non-batched mode with no
middleware and passive observers: after `setState(p, v1); setState(p, v2)`
the value read back at `p` is deep-equal to `v2` (it is `v2` itself unless
the value already stored was deep-equal to `v2`, in which case that stored
value remains); and any `setState` whose value deep-equals the stored value
is a complete no-op producing zero internal and zero external subscriber
notifications. -/
theorem c5_amended (env : CbEnv) (sm : SM) (p : String) (v1 v2 : Value)
    (hp : passive env) (hv : isValidPath p = true) (hparts : getPathParts p ≠ [])
    (hcu : p ∉ sm.currentlyUpdating) (hiu : sm.isUpdating = false)
    (hb : ¬(sm.batchingEnabled = true ∧ 0 < sm.batchDelayMs))
    (hwf : wfValue v2 = true) :
    deepEquals (getStateRaw
        (setState env (setState env sm p v1).1 p v2).1.state p .null) v2 = true ∧
    (∀ w, deepEquals (getStateRaw sm.state p .null) w = true →
      setState env sm p w = (sm, [])) := by
  constructor
  · have hd1 := setState_immediate_dispatch env sm p v1 hv hcu hb
    by_cases h1 : deepEquals (getStateRaw sm.state p .null) v1 = true
    · have e1 : setState env sm p v1 = (sm, []) := by
        rw [hd1, setStateImmediate_noop env sm p v1 h1]
      rw [e1]
      by_cases h2 : deepEquals (getStateRaw sm.state p .null) v2 = true
      · rw [setState_immediate_dispatch env sm p v2 hv hcu hb,
          setStateImmediate_noop env sm p v2 h2]
        exact h2
      · have hne2 : deepEquals (getStateRaw sm.state p .null) v2 = false := by
          simpa using h2
        rw [setState_immediate_dispatch env sm p v2 hv hcu hb]
        obtain ⟨s1, _, _, _, _, _, _⟩ :=
          setStateImmediate_passive env sm p v2 hp hiu hcu hne2
        rw [s1, getStateRaw_writeParts _ _ _ _ hv hparts]
        exact deepEquals_refl v2 hwf
    · have hne1 : deepEquals (getStateRaw sm.state p .null) v1 = false := by
        simpa using h1
      rw [hd1]
      obtain ⟨a1, a2, a3, a4, a5, _, _⟩ :=
        setStateImmediate_passive env sm p v1 hp hiu hcu hne1
      have hv1read : getStateRaw (setStateImmediate env sm p v1).1.state p .null = v1 := by
        rw [a1, getStateRaw_writeParts _ _ _ _ hv hparts]
      have hcu1 : p ∉ (setStateImmediate env sm p v1).1.currentlyUpdating := by
        rw [a2]
        exact hcu
      have hb1 : ¬((setStateImmediate env sm p v1).1.batchingEnabled = true ∧
          0 < (setStateImmediate env sm p v1).1.batchDelayMs) := by
        rw [a4, a5]
        exact hb
      rw [setState_immediate_dispatch env _ p v2 hv hcu1 hb1]
      by_cases h2 : deepEquals v1 v2 = true
      · have hst : deepEquals (getStateRaw (setStateImmediate env sm p v1).1.state p .null)
            v2 = true := by
          rw [hv1read]
          exact h2
        rw [setStateImmediate_noop env _ p v2 hst]
        rw [hv1read]
        exact h2
      · have hne2 : deepEquals (getStateRaw (setStateImmediate env sm p v1).1.state p .null)
            v2 = false := by
          rw [hv1read]
          simpa using h2
        obtain ⟨b1, _, _, _, _, _, _⟩ :=
          setStateImmediate_passive env _ p v2 hp a3 hcu1 hne2
        rw [b1, getStateRaw_writeParts _ _ _ _ hv hparts]
        exact deepEquals_refl v2 hwf
  · intro w hw
    rw [setState_immediate_dispatch env sm p w hv hcu hb,
      setStateImmediate_noop env sm p w hw]

/-- **C5, witness.** The amended theorem applied at a concrete input. -/
theorem c5_amended_witness :
    deepEquals (getStateRaw
        (setState passiveEnv (setState passiveEnv SM.initial "x" (.num 1)).1
          "x" (.num 2)).1.state "x" .null) (.num 2) = true :=
  (c5_amended passiveEnv SM.initial "x" (.num 1) (.num 2)
    (fun _ => rfl) rfl (by decide) (by simp [SM.initial]) rfl (by decide) rfl).1

end Juris

namespace Juris

/-! ## Claim C2: batching with batchDelayMs = 0 -/

/-- The C2 scenario manager: fresh StateManager, one hierarchical external
subscriber on "counter", then `configureBatching({batchDelayMs: 0,
maxBatchSize: 50})`. -/
def c2_sm : SM :=
  configureBatching { SM.initial with externalSubs := [("counter", [⟨0, 0, true⟩])] }
    ⟨some 50, some 0, none⟩

def c2_r1 : SM × List Ev := setState passiveEnv c2_sm "counter" (.num 1)

def c2_r2 : SM × List Ev := setState passiveEnv c2_r1.1 "counter" (.num 2)

/-- **C2, counterexample.** With batching enabled and
`configureBatching({batchDelayMs: 0, maxBatchSize: 50})`, the two setState
calls do NOT coalesce into one flushed write of 2: `setState` only queues
when `batchDelayMs > 0`, so both calls run through `_setStateImmediate`,
producing two writes and two subscriber notifications (values 1 then 2),
with nothing queued. -/
theorem c2_counterexample :
    c2_r1.2 ++ c2_r2.2 =
      [.write "counter" (.num 1), .externalCb 0 (.num 1) .null "counter",
       .write "counter" (.num 2), .externalCb 0 (.num 2) (.num 1) "counter"] ∧
    ((c2_r1.2 ++ c2_r2.2).filter isWriteEv).length = 2 ∧
    c2_r2.1.updateQueue = [] := ⟨rfl, rfl, rfl⟩

def c2_smB : SM :=
  configureBatching { SM.initial with externalSubs := [("counter", [⟨0, 0, true⟩])] }
    ⟨some 50, some 1, none⟩

def c2_q1 : SM × List Ev := setState passiveEnv c2_smB "counter" (.num 1)

def c2_q2 : SM × List Ev := setState passiveEnv c2_q1.1 "counter" (.num 2)

def c2_fl : SM × List Ev := processBatchedUpdates passiveEnv c2_q2.1

/-- **C2 (amended).** With `batchDelayMs: 0` the batching queue is bypassed
(`setState` queues only when `batchDelayMs > 0`): the two calls produce two
immediate writes (1 then 2) and two notifications, and `getState("counter")`
is 2.  Coalescing into exactly one flushed write of 2 does occur, but only
with a positive delay: with `batchDelayMs: 1` both updates are queued with
no synchronous write, and the timer flush de-duplicates by path (last write
wins) and applies exactly one write of 2. -/
theorem c2_amended :
    (c2_r1.2 = [.write "counter" (.num 1), .externalCb 0 (.num 1) .null "counter"] ∧
     c2_r2.2 = [.write "counter" (.num 2), .externalCb 0 (.num 2) (.num 1) "counter"] ∧
     getStateRaw c2_r2.1.state "counter" .null = .num 2) ∧
    (c2_q1.2 = [] ∧ c2_q2.2 = [] ∧
     c2_q2.1.updateQueue = [("counter", .num 1), ("counter", .num 2)] ∧
     c2_fl.2 = [.write "counter" (.num 2), .externalCb 0 (.num 2) .null "counter"] ∧
     getStateRaw c2_fl.1.state "counter" .null = .num 2) :=
  ⟨⟨rfl, rfl, rfl⟩, ⟨rfl, rfl, rfl, rfl, rfl⟩⟩

/-! ## Claim C4: hierarchical subscriber arguments -/

/-- The C4 scenario: state `user = {name: "A", age: 30}` and a hierarchical
external subscription on "user" (callback 5), then
`setState("user.name", "X")`. -/
def c4_sm : SM :=
  { SM.initial with
    state := [("user", .obj false [("name", .str "A"), ("age", .num 30)])],
    externalSubs := [("user", [⟨0, 5, true⟩])] }

def c4_r : SM × List Ev := setState passiveEnv c4_sm "user.name" (.str "X")

/-- **C4, counterexample.** The hierarchical subscriber on "user" is invoked
exactly once, but `_notifyExternalSubscribers` passes it the new/old LEAF
values of the changed path "user.name" (`"X"`, `"A"`) plus the changed path
string — not the full object-shaped value of "user" (which is
`{name: "X", age: 30}` after the write and is not even deep-equal to the
argument actually passed). -/
theorem c4_counterexample :
    externalCalls c4_r.2 = [(5, .str "X", .str "A", "user.name")] ∧
    getStateRaw c4_r.1.state "user" .null =
      .obj false [("name", .str "X"), ("age", .num 30)] ∧
    deepEquals (.str "X") (.obj false [("name", .str "X"), ("age", .num 30)]) = false :=
  ⟨rfl, rfl, rfl⟩

end Juris

namespace Juris

theorem triggerPathSubscribers_no_internal (env : CbEnv) (sm : SM) (q : String)
    (h : sm.internalSubs = []) : triggerPathSubscribers env sm q = (sm, []) := by
  unfold triggerPathSubscribers
  rw [h]
  rfl

theorem foldl_trigger_nil (env : CbEnv) (l : List String) (sm : SM) (evs : List Ev)
    (h : sm.internalSubs = []) :
    l.foldl (fun acc p =>
      let r := triggerPathSubscribers env acc.1 p
      (r.1, acc.2 ++ r.2)) (sm, evs) = (sm, evs) := by
  induction l with
  | nil => rfl
  | cons q t ih =>
      simp only [List.foldl_cons]
      rw [triggerPathSubscribers_no_internal env sm q h]
      simpa using ih

/-- With no internal subscribers registered, the whole internal notification
pass (`_notifySubscribers`) is a no-op. -/
theorem notifySubscribers_no_internal (env : CbEnv) (sm : SM) (p : String)
    (h : sm.internalSubs = []) : notifySubscribers env sm p = (sm, []) := by
  unfold notifySubscribers
  rw [triggerPathSubscribers_no_internal env sm p h]
  simp only [foldl_trigger_nil, h]

/-- `_notifyExternalSubscribers` over a registry holding exactly one record
whose test fires, with a passive callback: exactly one invocation. -/
theorem notifyExternalSubscribers_single (env : CbEnv) (sm : SM) (sp : String)
    (rec : SubRec) (cp : String) (nv ov : Value) (hp : passive env)
    (hsubs : sm.externalSubs = [(sp, [rec])])
    (hfire : (if rec.hierarchical then cp == sp || jsStartsWith cp (sp ++ ".")
      else cp == sp) = true) :
    notifyExternalSubscribers env sm cp nv ov = (sm, [.externalCb rec.cb nv ov cp]) := by
  unfold notifyExternalSubscribers
  rw [hsubs]
  simp only [List.foldl_cons, List.foldl_nil]
  rw [hfire]
  rw [if_pos rfl]
  rw [hp rec.cb]
  rfl

/-- **C4 (amended).** After `subscribe("user", cb)` with `hierarchical=true`
as the only subscription and no internal bindings, a single non-batched
`setState("user.name", v)` that changes the value invokes cb exactly once,
and the arguments passed are the new and old values of the CHANGED path
"user.name" (the leaf) together with the changed path string — not the full
object-shaped value of "user". -/
theorem c4_amended (sid c : Nat) (uold v : Value)
    (hne : deepEquals (getStateRaw [("user", uold)] "user.name" .null) v = false) :
    externalCalls (setState passiveEnv
      { SM.initial with
        state := [("user", uold)],
        externalSubs := [("user", [⟨sid, c, true⟩])] } "user.name" v).2 =
      [(c, v, getStateRaw [("user", uold)] "user.name" .null, "user.name")] := by
  rw [setState_immediate_dispatch passiveEnv _ "user.name" v rfl
    (by simp [SM.initial]) (by simp [SM.initial])]
  unfold setStateImmediate
  rw [hne]
  rw [if_neg Bool.false_ne_true]
  rw [if_neg (by simp [SM.initial] : ¬(({ SM.initial with
    state := [("user", uold)],
    externalSubs := [("user", [⟨sid, c, true⟩])] } : SM).isUpdating = true))]
  unfold notifyPhase
  simp only [SM.initial]
  rw [show (([] : List String).contains "user.name") = false from rfl]
  simp only [Bool.false_eq_true, if_false]
  rw [notifySubscribers_no_internal passiveEnv _ "user.name" rfl]
  rw [notifyExternalSubscribers_single passiveEnv _ "user" ⟨sid, c, true⟩ "user.name"
    v (getStateRaw [("user", uold)] "user.name" .null) (fun _ => rfl) rfl rfl]
  rfl

/-- **C4, witness.** The amended theorem applied at a concrete input. -/
theorem c4_amended_witness :
    externalCalls (setState passiveEnv
      { SM.initial with
        state := [("user", .obj false [("name", .str "A"), ("age", .num 30)])],
        externalSubs := [("user", [⟨0, 5, true⟩])] } "user.name" (.str "X")).2 =
      [(5, .str "X",
        getStateRaw [("user", .obj false [("name", .str "A"), ("age", .num 30)])]
          "user.name" .null, "user.name")] :=
  c4_amended 0 5 (.obj false [("name", .str "A"), ("age", .num 30)]) (.str "X") rfl

end Juris

namespace Juris

/-! ## Claim C8: invalid and re-entrant setState calls -/

/-- **C8, counterexample.** An invalid path is NOT "rejected with a
warning": the short-circuit `!isValidPath(path) || this._hasCircularUpdate(path)`
returns before `_hasCircularUpdate` (the only warning site) runs, so the
call is dropped silently — state unchanged, no events at all, in particular
zero warnings.  Shown for an empty path, a whitespace-only path and a path
containing "..". -/
theorem c8_counterexample :
    setState passiveEnv SM.initial "" (.num 1) = (SM.initial, []) ∧
    setState passiveEnv SM.initial "   " (.num 1) = (SM.initial, []) ∧
    setState passiveEnv SM.initial "a..b" (.num 1) = (SM.initial, []) ∧
    ((setState passiveEnv SM.initial "" (.num 1)).2.filter isWarnEv) = [] :=
  ⟨rfl, rfl, rfl, rfl⟩

/-- **C8 (amended).** A setState whose path is invalid (empty,
whitespace-only, or containing "..") is silently ignored: no exception, no
state change, no subscriber notification and NO warning.  A setState whose
path is currently mid-notification is dropped with a circular-update
warning and likewise leaves the state untouched and notifies nobody. -/
theorem c8_amended (env : CbEnv) (sm : SM) (p : String) (v : Value) :
    (isValidPath p = false → setState env sm p v = (sm, [])) ∧
    (isValidPath p = true → p ∈ sm.currentlyUpdating →
      setState env sm p v = (sm, [.warn p])) := by
  constructor
  · intro h
    unfold setState
    rw [h]
    rw [if_pos rfl]
  · intro hv hm
    unfold setState
    rw [hv]
    rw [if_neg (fun h => Bool.noConfusion h)]
    have hc : sm.currentlyUpdating.contains p = true := by simpa using hm
    rw [hc]
    rw [if_pos rfl]

/-- **C8, witness.** The amended theorem applied at concrete inputs: the
invalid path "" is dropped with no event, and a re-entrant update to a path
mid-notification is dropped with exactly a warning. -/
theorem c8_amended_witness :
    setState passiveEnv SM.initial "" (.num 1) = (SM.initial, []) ∧
    setState passiveEnv { SM.initial with currentlyUpdating := ["p"] } "p" (.num 1) =
      ({ SM.initial with currentlyUpdating := ["p"] }, [.warn "p"]) :=
  ⟨(c8_amended passiveEnv SM.initial "" (.num 1)).1 rfl,
   (c8_amended passiveEnv { SM.initial with currentlyUpdating := ["p"] } "p"
      (.num 1)).2 rfl (by simp)⟩

/-! ## Claim C6: nested setState during a notification phase -/

/-- The C6 scenario: external subscriber 0 on "a" issues
`setState("b", 2)` from inside its callback; external subscriber 1 on "b"
is a passive observer. -/
def c6_env : CbEnv :=
  ⟨fun cb => if cb = 0 then .doSetState "b" (.num 2) else .record, fun _ _ => []⟩

def c6_sm : SM :=
  { SM.initial with externalSubs := [("a", [⟨0, 0, true⟩]), ("b", [⟨1, 1, true⟩])] }

def c6_r : SM × List Ev := setState c6_env c6_sm "a" (.num 1)

/-- **C6, counterexample.** During the notification phase of
`setState("a", 1)`, subscriber 0 issues a nested `setState("b", 2)` to a
different, non-circular path.  The write to "b" lands, but because
`this.isUpdating` is still true the nested call skips its notification
block entirely: subscriber 1 (bound to "b") is never invoked — not before
the nested call returns, and not afterwards either.  The full event log of
the outer call shows the write to "b" with no invocation of callback 1. -/
theorem c6_counterexample :
    c6_r.2 = [.write "a" (.num 1), .externalCb 0 (.num 1) .null "a", .write "b" (.num 2)] ∧
    getStateRaw c6_r.1.state "b" .null = .num 2 ∧
    externalCalls c6_r.2 = [(0, .num 1, .null, "a")] :=
  ⟨rfl, rfl, rfl⟩

/-- **C6 (amended).** For a top-level non-batched setState, all subscriber
notifications are produced synchronously by the call itself.  A setState
issued while a notification phase is in progress, however, only performs
the state write (or queues, in batched mode): its event log never contains
any subscriber invocation, and when the guards pass and the value differs
the tree write still happens. -/
theorem c6_amended (sm : SM) (p : String) (v : Value) :
    (∀ e ∈ (setStateNested sm p v).2, isCbEv e = false) ∧
    (isValidPath p = true → p ∉ sm.currentlyUpdating →
      ¬(sm.batchingEnabled = true ∧ 0 < sm.batchDelayMs) →
      deepEquals (getStateRaw sm.state p .null) v = false →
      (setStateNested sm p v).1.state = writeParts sm.state (getPathParts p) v) := by
  constructor
  · exact (setStateNested_spec sm p v).2.2.2.2.2
  · intro hv hm hb hne
    unfold setStateNested writeOnly
    rw [hv]
    rw [if_neg (fun h => Bool.noConfusion h)]
    have hc : sm.currentlyUpdating.contains p = false := by simpa using hm
    rw [hc]
    rw [if_neg Bool.false_ne_true]
    rw [if_neg hb]
    rw [hne]
    rw [if_neg Bool.false_ne_true]

/-- **C6, witness.** The amended theorem applied at a concrete input (the
nested write of the counterexample scenario). -/
theorem c6_amended_witness :
    (∀ e ∈ (setStateNested SM.initial "b" (.num 2)).2, isCbEv e = false) ∧
    (setStateNested SM.initial "b" (.num 2)).1.state =
      writeParts SM.initial.state (getPathParts "b") (.num 2) :=
  ⟨(c6_amended SM.initial "b" (.num 2)).1,
   (c6_amended SM.initial "b" (.num 2)).2 rfl (by simp [SM.initial])
     (by simp [SM.initial]) rfl⟩

end Juris

namespace Juris

/-! ## Claim C3: dynamic re-tracking only ever adds bindings -/

/-- Is internal callback `cb` currently bound to path `q`? -/
def boundTo (sm : SM) (cb : Nat) (q : String) : Bool :=
  match alLookup sm.internalSubs q with
  | some l => l.contains cb
  | none => false

theorem alLookup_alSet_ne {β : Type} (l : List (String × β)) (k k2 : String) (v : β)
    (h : k2 ≠ k) : alLookup (alSet l k v) k2 = alLookup l k2 := by
  induction l with
  | nil =>
      simp only [alSet, alLookup]
      rw [if_neg (by simpa using Ne.symm h)]
  | cons hd tl ih =>
      obtain ⟨k0, v0⟩ := hd
      by_cases hk : k0 == k
      · have : k0 ≠ k2 := by
          intro he
          exact h (he ▸ (by simpa using hk : k0 = k))
        simp only [alSet, hk, if_true, alLookup]
        rw [if_neg (by simpa using this), if_neg (by simpa using this)]
      · simp only [alSet, hk, Bool.false_eq_true, if_false, alLookup]
        by_cases hk2 : k0 == k2
        · rw [if_pos hk2, if_pos hk2]
        · rw [if_neg (by simpa using hk2), if_neg (by simpa using hk2)]
          exact ih

theorem alLookup_append_left {β : Type} (l l2 : List (String × β)) (k : String) (x : β)
    (h : alLookup l k = some x) : alLookup (l ++ l2) k = some x := by
  induction l with
  | nil => simp [alLookup] at h
  | cons hd tl ih =>
      obtain ⟨k0, v0⟩ := hd
      by_cases hk : k0 == k
      · simp only [alLookup, hk, if_true] at h
        simp only [List.cons_append, alLookup, hk, if_true]
        exact h
      · simp only [alLookup, hk, Bool.false_eq_true, if_false] at h
        simp only [List.cons_append, alLookup, hk, Bool.false_eq_true, if_false]
        exact ih h

theorem subscribeInternalOp_mono (sm : SM) (p : String) (cb c : Nat) (q : String)
    (h : boundTo sm c q = true) : boundTo (subscribeInternalOp sm p cb) c q = true := by
  unfold boundTo at h ⊢
  unfold subscribeInternalOp
  cases hl : alLookup sm.internalSubs p with
  | some l =>
      by_cases hq : q = p
      · subst hq
        rw [hl] at h
        simp only [alLookup_alSet_self]
        have h2 : c ∈ l := by simpa using h
        simp [h2]
      · rw [alLookup_alSet_ne _ _ _ _ hq]
        exact h
  | none =>
      cases hq : alLookup sm.internalSubs q with
      | some l2 =>
          rw [hq] at h
          rw [alLookup_append_left _ _ _ _ hq]
          exact h
      | none => rw [hq] at h; cases h

theorem subscribeInternalOp_self (sm : SM) (p : String) (cb : Nat) :
    boundTo (subscribeInternalOp sm p cb) cb p = true := by
  unfold boundTo subscribeInternalOp
  cases hl : alLookup sm.internalSubs p with
  | some l =>
      simp only [alLookup_alSet_self]
      simp
  | none =>
      rw [alLookup_append_of_none _ _ _ hl]
      simp

theorem rebindOne_mono (sm : SM) (cb : Nat) (p : String) (c : Nat) (q : String)
    (h : boundTo sm c q = true) : boundTo (rebindOne sm cb p) c q = true := by
  unfold rebindOne
  cases alLookup sm.internalSubs p with
  | none => exact subscribeInternalOp_mono sm p cb c q h
  | some l =>
      dsimp only
      by_cases hc : l.contains cb = true
      · rw [if_pos hc]
        exact h
      · rw [if_neg hc]
        exact subscribeInternalOp_mono sm p cb c q h

theorem rebindOne_self (sm : SM) (cb : Nat) (p : String) :
    boundTo (rebindOne sm cb p) cb p = true := by
  unfold rebindOne
  cases hl : alLookup sm.internalSubs p with
  | none => exact subscribeInternalOp_self sm p cb
  | some l =>
      dsimp only
      by_cases hc : l.contains cb = true
      · rw [if_pos hc]
        unfold boundTo
        rw [hl]
        exact hc
      · rw [if_neg hc]
        exact subscribeInternalOp_self sm p cb

theorem fold_rebind_mono (reads : List String) (sm : SM) (cb : Nat) (c : Nat) (q : String)
    (h : boundTo sm c q = true) :
    boundTo (reads.foldl (fun acc p => rebindOne acc cb p) sm) c q = true := by
  have := foldl_pred (fun a b : SM => ∀ c2 q2, boundTo a c2 q2 = true → boundTo b c2 q2 = true)
    (fun _ _ _ hx hy c2 q2 hb => hy c2 q2 (hx c2 q2 hb))
    (fun _ _ _ hb => hb)
    (fun acc p => rebindOne acc cb p)
    (fun acc p c2 q2 hb => rebindOne_mono acc cb p c2 q2 hb)
    reads sm
  exact this c q h

theorem fold_rebind_covers (reads : List String) (sm : SM) (cb : Nat) (q : String)
    (h : q ∈ reads) :
    boundTo (reads.foldl (fun acc p => rebindOne acc cb p) sm) cb q = true := by
  induction reads generalizing sm with
  | nil => cases h
  | cons r t ih =>
      simp only [List.foldl_cons]
      rcases List.mem_cons.mp h with heq | ht
      · subst heq
        exact fold_rebind_mono t (rebindOne sm cb q) cb cb q (rebindOne_self sm cb q)
      · exact ih (rebindOne sm cb r) ht

theorem boundTo_internalSubs_eq (a b : SM) (h : a.internalSubs = b.internalSubs)
    (c : Nat) (q : String) : boundTo a c q = boundTo b c q := by
  unfold boundTo
  rw [h]

theorem runOneInternal_mono (env : CbEnv) (sm : SM) (path : String) (cb c : Nat)
    (q : String) (h : boundTo sm c q = true) :
    boundTo (runOneInternal env sm path cb).1 c q = true := by
  unfold runOneInternal
  have h1 : boundTo (runCbAct sm (env.act cb)).1 c q = true := by
    rw [boundTo_internalSubs_eq _ sm (runCbAct_spec sm (env.act cb)).1]
    exact h
  have h2 := fold_rebind_mono (env.reads cb (runCountOf sm cb))
    (runCbAct sm (env.act cb)).1 cb c q h1
  rw [boundTo_internalSubs_eq _ _ (rfl :
    (bumpRun ((env.reads cb (runCountOf sm cb)).foldl
      (fun acc p => rebindOne acc cb p) (runCbAct sm (env.act cb)).1) cb).internalSubs =
    ((env.reads cb (runCountOf sm cb)).foldl
      (fun acc p => rebindOne acc cb p) (runCbAct sm (env.act cb)).1).internalSubs)]
  exact h2

theorem runOneInternal_covers (env : CbEnv) (sm : SM) (path : String) (cb : Nat)
    (q : String) (h : q ∈ env.reads cb (runCountOf sm cb)) :
    boundTo (runOneInternal env sm path cb).1 cb q = true := by
  unfold runOneInternal
  have h2 := fold_rebind_covers (env.reads cb (runCountOf sm cb))
    (runCbAct sm (env.act cb)).1 cb q h
  rw [boundTo_internalSubs_eq _ _ (rfl :
    (bumpRun ((env.reads cb (runCountOf sm cb)).foldl
      (fun acc p => rebindOne acc cb p) (runCbAct sm (env.act cb)).1) cb).internalSubs =
    ((env.reads cb (runCountOf sm cb)).foldl
      (fun acc p => rebindOne acc cb p) (runCbAct sm (env.act cb)).1).internalSubs)]
  exact h2

end Juris

namespace Juris

theorem triggerPathSubscribers_mono (env : CbEnv) (sm : SM) (path : String)
    (c : Nat) (q : String) (h : boundTo sm c q = true) :
    boundTo (triggerPathSubscribers env sm path).1 c q = true := by
  unfold triggerPathSubscribers
  cases alLookup sm.internalSubs path with
  | none => exact h
  | some cbs =>
      dsimp only
      have := foldl_pred
        (fun a b : SM × List Ev => ∀ c2 q2, boundTo a.1 c2 q2 = true → boundTo b.1 c2 q2 = true)
        (fun _ _ _ hx hy c2 q2 hb => hy c2 q2 (hx c2 q2 hb))
        (fun _ _ _ hb => hb)
        (fun acc cb =>
          let r := runOneInternal env acc.1 path cb
          (r.1, acc.2 ++ r.2))
        (fun acc cb c2 q2 hb => runOneInternal_mono env acc.1 path cb c2 q2 hb)
        cbs (sm, [])
      exact this c q h

theorem triggerPathSubscribers_covers_single (env : CbEnv) (sm : SM) (path : String)
    (cb : Nat) (q : String) (hsub : alLookup sm.internalSubs path = some [cb])
    (hq : q ∈ env.reads cb (runCountOf sm cb)) :
    boundTo (triggerPathSubscribers env sm path).1 cb q = true := by
  unfold triggerPathSubscribers
  rw [hsub]
  simp only [List.foldl_cons, List.foldl_nil]
  exact runOneInternal_covers env sm path cb q hq

/-- The C3 scenario: internal callback 0, bound to "t", reads path "a"
during its first execution and only path "b" during its second. -/
def c3_env : CbEnv :=
  ⟨fun _ => .record, fun _ run => if run = 0 then ["a"] else ["b"]⟩

def c3_sm : SM := { SM.initial with internalSubs := [("t", [0])] }

def c3_t1 : SM × List Ev := triggerPathSubscribers c3_env c3_sm "t"

def c3_t2 : SM × List Ev := triggerPathSubscribers c3_env c3_t1.1 "t"

/-- **C3, counterexample.** After the second notification-triggered
re-execution — whose tracking scope recorded exactly ["b"] — the callback
is still bound to "a" (read only during the first execution) and to the
triggering path "t": the binding set is the accumulated union
{"t", "a", "b"}, not the most recent read set {"b"}.
`_triggerPathSubscribers` only ever adds bindings. -/
theorem c3_counterexample :
    c3_t2.1.internalSubs = [("t", [0]), ("a", [0]), ("b", [0])] ∧
    c3_env.reads 0 1 = ["b"] ∧
    boundTo c3_t2.1 0 "a" = true ∧
    boundTo c3_t2.1 0 "t" = true :=
  ⟨rfl, rfl, rfl, rfl⟩

/-- **C3 (amended).** The dependency set bound to an internal callback
grows monotonically: `_triggerPathSubscribers` never removes a binding
(every path the callback was bound to before an execution is still bound
afterwards), and after an execution the callback is additionally bound to
every path recorded in that execution's fresh tracking scope.  The binding
set is therefore the union of the original bindings with all paths ever
read, not the read set of the most recent execution. -/
theorem c3_amended (env : CbEnv) (sm : SM) (path : String) (cb c : Nat) (q : String) :
    (boundTo sm c q = true → boundTo (triggerPathSubscribers env sm path).1 c q = true) ∧
    (alLookup sm.internalSubs path = some [cb] →
      q ∈ env.reads cb (runCountOf sm cb) →
      boundTo (triggerPathSubscribers env sm path).1 cb q = true) :=
  ⟨triggerPathSubscribers_mono env sm path c q,
   fun hsub hq => triggerPathSubscribers_covers_single env sm path cb q hsub hq⟩

/-- **C3, witness.** The amended theorem applied at the concrete scenario:
the binding to "t" survives the first execution, and the path "a" read
during that execution is bound afterwards. -/
theorem c3_amended_witness :
    boundTo (triggerPathSubscribers c3_env c3_sm "t").1 0 "t" = true ∧
    boundTo (triggerPathSubscribers c3_env c3_sm "t").1 0 "a" = true :=
  ⟨(c3_amended c3_env c3_sm "t" 0 0 "t").1 rfl,
   (c3_amended c3_env c3_sm "t" 0 0 "a").2 rfl (by simp [c3_env, c3_sm, SM.initial, runCountOf, nlLookup])⟩

end Juris

namespace Juris

/-! ## Claim C10: unsubscribe removes exactly one record, idempotently -/

theorem alLookup_mem {β : Type} (l : List (String × β)) (k : String) (v : β)
    (h : alLookup l k = some v) : (k, v) ∈ l := by
  induction l with
  | nil => simp [alLookup] at h
  | cons hd tl ih =>
      obtain ⟨k0, v0⟩ := hd
      by_cases hk : k0 == k
      · simp only [alLookup, hk, if_true, Option.some.injEq] at h
        have : k0 = k := by simpa using hk
        subst this
        subst h
        exact List.mem_cons_self _ _
      · simp only [alLookup, hk, Bool.false_eq_true, if_false] at h
        exact List.mem_cons_of_mem _ (ih h)

theorem alSet_alSet {β : Type} (l : List (String × β)) (k : String) (v w : β) :
    alSet (alSet l k v) k w = alSet l k w := by
  induction l with
  | nil => simp [alSet]
  | cons hd tl ih =>
      obtain ⟨k0, v0⟩ := hd
      by_cases hk : k0 == k
      · simp [alSet, hk]
      · simp [alSet, hk, ih]

theorem alLookup_filter_ne {β : Type} (l : List (String × β)) (k : String) :
    alLookup (l.filter (fun e => e.1 ≠ k)) k = none := by
  induction l with
  | nil => rfl
  | cons hd tl ih =>
      obtain ⟨k0, v0⟩ := hd
      by_cases hk : k0 = k
      · subst hk
        simp only [List.filter_cons]
        rw [if_neg (by simp)]
        exact ih
      · simp only [List.filter_cons]
        rw [if_pos (by simp [hk])]
        simp only [alLookup]
        rw [if_neg (by simpa using hk)]
        exact ih

theorem filter_idem {α : Type} (l : List α) (p : α → Bool) :
    (l.filter p).filter p = l.filter p := by
  induction l with
  | nil => rfl
  | cons a t ih =>
      by_cases h : p a
      · simp [List.filter_cons, h, ih]
      · simp [List.filter_cons, h, ih]

/-- Every record id in the registry was allocated below the counter. -/
def subIdsBelow (sm : SM) : Prop :=
  ∀ e ∈ sm.externalSubs, ∀ r ∈ e.2, r.id < sm.nextSubId

/-- The registry never holds an empty record set (entries are deleted as
soon as their last record is removed). -/
def noEmptyEntries (sm : SM) : Prop := ∀ e ∈ sm.externalSubs, e.2 ≠ []

theorem filter_id_fresh (l : List SubRec) (sid : Nat) (h : ∀ r ∈ l, r.id < sid) :
    l.filter (fun r => r.id ≠ sid) = l := by
  induction l with
  | nil => rfl
  | cons r t ih =>
      have hr := h r (List.mem_cons_self _ _)
      simp only [List.filter_cons]
      rw [if_pos (by simp; omega)]
      rw [ih (fun r2 h2 => h r2 (List.mem_cons_of_mem _ h2))]

theorem unsubscribeOp_none (sm : SM) (q : String) (sid : Nat)
    (hl : alLookup sm.externalSubs q = none) : unsubscribeOp sm q sid = sm := by
  unfold unsubscribeOp
  rw [hl]

theorem unsubscribeOp_some_nil (sm : SM) (q : String) (sid : Nat) (l : List SubRec)
    (hl : alLookup sm.externalSubs q = some l)
    (h2 : l.filter (fun r => r.id ≠ sid) = []) :
    unsubscribeOp sm q sid =
      { sm with externalSubs := sm.externalSubs.filter (fun e => e.1 ≠ q) } := by
  unfold unsubscribeOp
  rw [hl]
  dsimp only
  rw [if_pos h2]

theorem unsubscribeOp_some_cons (sm : SM) (q : String) (sid : Nat) (l : List SubRec)
    (hl : alLookup sm.externalSubs q = some l)
    (h2 : l.filter (fun r => r.id ≠ sid) ≠ []) :
    unsubscribeOp sm q sid =
      { sm with externalSubs := alSet sm.externalSubs q (l.filter (fun r => r.id ≠ sid)) } := by
  unfold unsubscribeOp
  rw [hl]
  dsimp only
  rw [if_neg h2]

theorem subscribeOp_some (sm : SM) (p : String) (c : Nat) (h : Bool) (l : List SubRec)
    (hl : alLookup sm.externalSubs p = some l) :
    subscribeOp sm p c h =
      ({ sm with externalSubs := alSet sm.externalSubs p (l ++ [⟨sm.nextSubId, c, h⟩]), nextSubId := sm.nextSubId + 1 }, sm.nextSubId) := by
  unfold subscribeOp
  rw [hl]

theorem subscribeOp_none (sm : SM) (p : String) (c : Nat) (h : Bool)
    (hl : alLookup sm.externalSubs p = none) :
    subscribeOp sm p c h =
      ({ sm with externalSubs := sm.externalSubs ++ [(p, [⟨sm.nextSubId, c, h⟩])], nextSubId := sm.nextSubId + 1 }, sm.nextSubId) := by
  unfold subscribeOp
  rw [hl]

/-- No subscription record anywhere in the external registry carries the
callback `c`. -/
def cbAbsent (c : Nat) (es : List (String × List SubRec)) : Prop :=
  ∀ e ∈ es, ∀ r ∈ e.2, r.cb ≠ c

theorem foldl_pred_mem {α β : Type} (R : β → β → Prop)
    (htrans : ∀ a b c, R a b → R b c → R a c) (hrefl : ∀ a, R a a) :
    ∀ (l : List α) (f : β → α → β),
      (∀ acc x, x ∈ l → R acc (f acc x)) → ∀ acc, R acc (l.foldl f acc) := by
  intro l
  induction l with
  | nil => intro f h acc; exact hrefl acc
  | cons x t ih =>
      intro f h acc
      exact htrans _ _ _ (h acc x (List.mem_cons_self _ _))
        (ih f (fun a y hy => h a y (List.mem_cons_of_mem _ hy)) (f acc x))

theorem externalCalls_internalCb (cb : Nat) (p : String) (l : List Ev) :
    externalCalls (.internalCb cb p :: l) = externalCalls l := rfl

theorem externalCalls_write (p : String) (v : Value) (l : List Ev) :
    externalCalls (.write p v :: l) = externalCalls l := rfl

theorem externalCalls_ext (c : Nat) (nv ov : Value) (p : String) (l : List Ev) :
    externalCalls (.externalCb c nv ov p :: l) = (c, nv, ov, p) :: externalCalls l := rfl

theorem subscribeInternalOp_externalSubs (sm : SM) (p : String) (cb : Nat) :
    (subscribeInternalOp sm p cb).externalSubs = sm.externalSubs := by
  unfold subscribeInternalOp
  cases alLookup sm.internalSubs p <;> rfl

theorem rebindOne_externalSubs (sm : SM) (cb : Nat) (p : String) :
    (rebindOne sm cb p).externalSubs = sm.externalSubs := by
  unfold rebindOne
  cases alLookup sm.internalSubs p with
  | none => exact subscribeInternalOp_externalSubs sm p cb
  | some l =>
      dsimp only
      by_cases hc : l.contains cb = true
      · rw [if_pos hc]
      · rw [if_neg hc]
        exact subscribeInternalOp_externalSubs sm p cb

theorem runOneInternal_externalSubs (env : CbEnv) (sm : SM) (path : String) (cb : Nat) :
    (runOneInternal env sm path cb).1.externalSubs = sm.externalSubs := by
  have h1 : ∀ (l : List String) (s : SM),
      (l.foldl (fun acc p => rebindOne acc cb p) s).externalSubs = s.externalSubs := by
    intro l
    induction l with
    | nil => intro s; rfl
    | cons x t ih =>
        intro s
        rw [List.foldl_cons, ih (rebindOne s cb x), rebindOne_externalSubs]
  unfold runOneInternal bumpRun
  dsimp only
  rw [h1]
  exact (runCbAct_spec sm (env.act cb)).2.1

theorem runOneInternal_externalCalls (env : CbEnv) (sm : SM) (path : String) (cb : Nat) :
    externalCalls (runOneInternal env sm path cb).2 = [] := by
  unfold runOneInternal
  dsimp only
  rw [externalCalls_internalCb]
  exact externalCalls_eq_nil_of_noCb _ (runCbAct_spec sm (env.act cb)).2.2.2.2.2

theorem triggerPathSubscribers_externalSubs (env : CbEnv) (sm : SM) (path : String) :
    (triggerPathSubscribers env sm path).1.externalSubs = sm.externalSubs ∧
    externalCalls (triggerPathSubscribers env sm path).2 = [] := by
  unfold triggerPathSubscribers
  cases alLookup sm.internalSubs path with
  | none => exact ⟨rfl, rfl⟩
  | some cbs =>
      dsimp only
      have hfold := foldl_pred
        (fun a b : SM × List Ev => b.1.externalSubs = a.1.externalSubs ∧
          externalCalls b.2 = externalCalls a.2)
        (fun a b d hab hbd => ⟨hbd.1.trans hab.1, hbd.2.trans hab.2⟩)
        (fun a => ⟨rfl, rfl⟩)
        (fun acc cb =>
          ((runOneInternal env acc.1 path cb).1,
            acc.2 ++ (runOneInternal env acc.1 path cb).2))
        (fun acc cb => ⟨runOneInternal_externalSubs env acc.1 path cb, by
          dsimp only
          rw [externalCalls_append, runOneInternal_externalCalls, List.append_nil]⟩)
        cbs (sm, [])
      exact ⟨hfold.1, hfold.2⟩

theorem fold_trigger_extSubs (env : CbEnv) (l : List String) (acc : SM × List Ev) :
    ((l.foldl (fun a p =>
      ((triggerPathSubscribers env a.1 p).1,
        a.2 ++ (triggerPathSubscribers env a.1 p).2)) acc).1.externalSubs)
      = acc.1.externalSubs := by
  induction l generalizing acc with
  | nil => rfl
  | cons x t ih =>
      rw [List.foldl_cons, ih]
      exact (triggerPathSubscribers_externalSubs env acc.1 x).1

theorem fold_trigger_extCalls (env : CbEnv) (l : List String) (acc : SM × List Ev) :
    externalCalls ((l.foldl (fun a p =>
      ((triggerPathSubscribers env a.1 p).1,
        a.2 ++ (triggerPathSubscribers env a.1 p).2)) acc).2)
      = externalCalls acc.2 := by
  induction l generalizing acc with
  | nil => rfl
  | cons x t ih =>
      rw [List.foldl_cons, ih]
      dsimp only
      rw [externalCalls_append, (triggerPathSubscribers_externalSubs env acc.1 x).2,
        List.append_nil]

theorem notifySubscribers_externalSubs (env : CbEnv) (sm : SM) (path : String) :
    (notifySubscribers env sm path).1.externalSubs = sm.externalSubs ∧
    externalCalls (notifySubscribers env sm path).2 = [] := by
  unfold notifySubscribers
  dsimp only
  constructor
  · rw [fold_trigger_extSubs, fold_trigger_extSubs]
    exact (triggerPathSubscribers_externalSubs env sm path).1
  · rw [fold_trigger_extCalls, fold_trigger_extCalls]
    exact (triggerPathSubscribers_externalSubs env sm path).2

theorem notifyExternalSubscribers_externalSubs (env : CbEnv) (sm : SM)
    (changedPath : String) (nv ov : Value) (c : Nat) :
    (notifyExternalSubscribers env sm changedPath nv ov).1.externalSubs = sm.externalSubs ∧
    (cbAbsent c sm.externalSubs →
      ∀ q ∈ externalCalls (notifyExternalSubscribers env sm changedPath nv ov).2,
        q.1 ≠ c) := by
  constructor
  · unfold notifyExternalSubscribers
    have hfold := foldl_pred
      (fun a b : SM × List Ev => b.1.externalSubs = a.1.externalSubs)
      (fun a b d hab hbd => hbd.trans hab)
      (fun a => rfl)
      (fun acc entry => entry.2.foldl (fun acc2 r =>
        if (if r.hierarchical
            then changedPath == entry.1 || jsStartsWith changedPath (entry.1 ++ ".")
            else changedPath == entry.1) = true then
          ((runCbAct acc2.1 (env.act r.cb)).1,
            acc2.2 ++ [.externalCb r.cb nv ov changedPath]
              ++ (runCbAct acc2.1 (env.act r.cb)).2)
        else acc2) acc)
      (fun acc entry => by
        dsimp only
        have hin := foldl_pred
          (fun a b : SM × List Ev => b.1.externalSubs = a.1.externalSubs)
          (fun a b d hab hbd => hbd.trans hab)
          (fun a => rfl)
          (fun acc2 r =>
            if (if r.hierarchical
                then changedPath == entry.1 || jsStartsWith changedPath (entry.1 ++ ".")
                else changedPath == entry.1) = true then
              ((runCbAct acc2.1 (env.act r.cb)).1,
                acc2.2 ++ [.externalCb r.cb nv ov changedPath]
                  ++ (runCbAct acc2.1 (env.act r.cb)).2)
            else acc2)
          (fun acc2 r => by
            dsimp only
            by_cases hsn : (if r.hierarchical
                then changedPath == entry.1 || jsStartsWith changedPath (entry.1 ++ ".")
                else changedPath == entry.1) = true
            · rw [if_pos hsn]
              exact (runCbAct_spec acc2.1 (env.act r.cb)).2.1
            · rw [if_neg hsn])
          entry.2 acc
        exact hin)
      sm.externalSubs (sm, [])
    exact hfold
  · intro habs
    unfold notifyExternalSubscribers
    have hfold := foldl_pred_mem
      (fun a b : SM × List Ev =>
        ∀ q ∈ externalCalls b.2, q ∈ externalCalls a.2 ∨ q.1 ≠ c)
      (fun a b d hab hbd => fun q hq => (hbd q hq).elim (fun h => hab q h) Or.inr)
      (fun a => fun q hq => Or.inl hq)
      sm.externalSubs
      (fun acc entry => entry.2.foldl (fun acc2 r =>
        if (if r.hierarchical
            then changedPath == entry.1 || jsStartsWith changedPath (entry.1 ++ ".")
            else changedPath == entry.1) = true then
          ((runCbAct acc2.1 (env.act r.cb)).1,
            acc2.2 ++ [.externalCb r.cb nv ov changedPath]
              ++ (runCbAct acc2.1 (env.act r.cb)).2)
        else acc2) acc)
      (fun acc entry hentry => by
        dsimp only
        have hin := foldl_pred_mem
          (fun a b : SM × List Ev =>
            ∀ q ∈ externalCalls b.2, q ∈ externalCalls a.2 ∨ q.1 ≠ c)
          (fun a b d hab hbd => fun q hq => (hbd q hq).elim (fun h => hab q h) Or.inr)
          (fun a => fun q hq => Or.inl hq)
          entry.2
          (fun acc2 r =>
            if (if r.hierarchical
                then changedPath == entry.1 || jsStartsWith changedPath (entry.1 ++ ".")
                else changedPath == entry.1) = true then
              ((runCbAct acc2.1 (env.act r.cb)).1,
                acc2.2 ++ [.externalCb r.cb nv ov changedPath]
                  ++ (runCbAct acc2.1 (env.act r.cb)).2)
            else acc2)
          (fun acc2 r hr => by
            dsimp only
            by_cases hsn : (if r.hierarchical
                then changedPath == entry.1 || jsStartsWith changedPath (entry.1 ++ ".")
                else changedPath == entry.1) = true
            · rw [if_pos hsn]
              intro q hq
              rw [externalCalls_append, externalCalls_append, externalCalls_ext] at hq
              rw [externalCalls_eq_nil_of_noCb _
                (runCbAct_spec acc2.1 (env.act r.cb)).2.2.2.2.2] at hq
              rw [List.append_nil] at hq
              rcases List.mem_append.mp hq with h1 | h2
              · exact Or.inl h1
              · rcases List.mem_singleton.mp h2 with rfl
                exact Or.inr (habs entry hentry r hr)
            · rw [if_neg hsn]
              exact fun q hq => Or.inl hq)
          acc
        exact hin)
      (sm, [])
    intro q hq
    rcases hfold q hq with h1 | h2
    · exact absurd h1 (List.not_mem_nil q)
    · exact h2

theorem notifyPhase_externalSubs (env : CbEnv) (sm1 : SM) (path : String)
    (v ov : Value) (c : Nat) :
    (notifyPhase env sm1 path v ov).1.externalSubs = sm1.externalSubs ∧
    (cbAbsent c sm1.externalSubs →
      ∀ q ∈ externalCalls (notifyPhase env sm1 path v ov).2, q.1 ≠ c) := by
  unfold notifyPhase
  dsimp only
  constructor
  · rw [(notifyExternalSubscribers_externalSubs env _ path v ov c).1]
    exact (notifySubscribers_externalSubs env _ path).1
  · intro habs q hq
    rw [externalCalls_write, externalCalls_append,
      (notifySubscribers_externalSubs env _ path).2, List.nil_append] at hq
    refine (notifyExternalSubscribers_externalSubs env _ path v ov c).2 ?_ q hq
    rw [(notifySubscribers_externalSubs env _ path).1]
    exact habs

theorem setStateImmediate_externalSubs (env : CbEnv) (sm : SM) (p : String)
    (v : Value) (c : Nat) :
    (setStateImmediate env sm p v).1.externalSubs = sm.externalSubs ∧
    (cbAbsent c sm.externalSubs →
      ∀ q ∈ externalCalls (setStateImmediate env sm p v).2, q.1 ≠ c) := by
  unfold setStateImmediate
  by_cases h1 : deepEquals (getStateRaw sm.state p .null) v = true
  · rw [if_pos h1]
    exact ⟨rfl, fun _ q hq => absurd hq (List.not_mem_nil q)⟩
  · rw [if_neg h1]
    dsimp only
    by_cases h2 : sm.isUpdating = true
    · rw [if_pos h2]
      exact ⟨rfl, fun _ q hq => by
        rw [externalCalls_write] at hq
        exact absurd hq (List.not_mem_nil q)⟩
    · rw [if_neg h2]
      exact notifyPhase_externalSubs env _ p v _ c

theorem processBatchedUpdates_externalSubs (env : CbEnv) (sm : SM) (c : Nat) :
    (processBatchedUpdates env sm).1.externalSubs = sm.externalSubs ∧
    (cbAbsent c sm.externalSubs →
      ∀ q ∈ externalCalls (processBatchedUpdates env sm).2, q.1 ≠ c) := by
  unfold processBatchedUpdates
  by_cases h1 : sm.batchUpdateInProgress = true ∨ sm.updateQueue.length = 0
  · rw [if_pos h1]
    exact ⟨rfl, fun _ q hq => absurd hq (List.not_mem_nil q)⟩
  · rw [if_neg h1]
    dsimp only
    have hfold := foldl_pred
      (fun a b : SM × List Ev => b.1.externalSubs = a.1.externalSubs ∧
        (cbAbsent c a.1.externalSubs →
          ∀ q ∈ externalCalls b.2, q ∈ externalCalls a.2 ∨ q.1 ≠ c))
      (fun a b d hab hbd => ⟨hbd.1.trans hab.1, fun ha q hq => by
        have hb : cbAbsent c b.1.externalSubs := by rw [hab.1]; exact ha
        rcases hbd.2 hb q hq with h2 | h2
        · exact (hab.2 ha q h2).elim Or.inl Or.inr
        · exact Or.inr h2⟩)
      (fun a => ⟨rfl, fun _ q hq => Or.inl hq⟩)
      (fun acc pv =>
        ((setStateImmediate env acc.1 pv.1 pv.2).1,
          acc.2 ++ (setStateImmediate env acc.1 pv.1 pv.2).2))
      (fun acc pv => ⟨setStateImmediate_externalSubs env acc.1 pv.1 pv.2 c |>.1,
        fun ha q hq => by
          dsimp only at hq
          rw [externalCalls_append] at hq
          rcases List.mem_append.mp hq with h2 | h2
          · exact Or.inl h2
          · exact Or.inr
              ((setStateImmediate_externalSubs env acc.1 pv.1 pv.2 c).2 ha q h2)⟩)
      (pathGroups (sm.updateQueue.take (min sm.maxBatchSize sm.updateQueue.length)))
      ({ sm with batchUpdateInProgress := true, updateQueue := sm.updateQueue.drop (min sm.maxBatchSize sm.updateQueue.length) }, [])
    exact ⟨hfold.1, fun habs q hq =>
      (hfold.2 habs q hq).elim (fun h => absurd h (List.not_mem_nil q)) id⟩

theorem queueUpdate_externalSubs (env : CbEnv) (sm : SM) (p : String) (v : Value)
    (c : Nat) :
    (queueUpdate env sm p v).1.externalSubs = sm.externalSubs ∧
    (cbAbsent c sm.externalSubs →
      ∀ q ∈ externalCalls (queueUpdate env sm p v).2, q.1 ≠ c) := by
  unfold queueUpdate
  dsimp only
  by_cases h1 : ({ sm with updateQueue := sm.updateQueue ++ [(p, v)] } :
      SM).updateQueue.length > sm.maxBatchSize * 2
  · rw [if_pos h1]
    exact processBatchedUpdates_externalSubs env _ c
  · rw [if_neg h1]
    exact ⟨rfl, fun _ q hq => absurd hq (List.not_mem_nil q)⟩

theorem setState_externalCalls (env : CbEnv) (sm : SM) (p : String) (v : Value)
    (c : Nat) (habs : cbAbsent c sm.externalSubs) :
    ∀ q ∈ externalCalls (setState env sm p v).2, q.1 ≠ c := by
  unfold setState
  by_cases h1 : isValidPath p = false
  · rw [if_pos h1]
    exact fun q hq => absurd hq (List.not_mem_nil q)
  · rw [if_neg h1]
    by_cases h2 : sm.currentlyUpdating.contains p = true
    · rw [if_pos h2]
      intro q hq
      exact absurd hq (List.not_mem_nil q)
    · rw [if_neg h2]
      by_cases h3 : sm.batchingEnabled = true ∧ 0 < sm.batchDelayMs
      · rw [if_pos h3]
        exact (queueUpdate_externalSubs env sm p v c).2 habs
      · rw [if_neg h3]
        exact (setStateImmediate_externalSubs env sm p v c).2 habs

/-- **C10.** The unsubscribe closure returned by `subscribe(p, cb, h)`
(1) removes exactly the record that the subscribe call created — the
registry, the state tree and the internal bindings return to exactly their
previous contents (only the id counter has advanced), so every other
subscription on any path is unaffected;
(2) is idempotent: running any unsubscribe a second time changes nothing;
(3) after it runs, no subsequent `setState` — to `p` or to any other path —
invokes a callback `c` absent from the registry, so the unsubscribed
callback is never called again. -/
theorem c10_unsubscribe (sm : SM) (p : String) (c : Nat) (h : Bool)
    (hids : subIdsBelow sm) (hne : noEmptyEntries sm) :
    ((unsubscribeOp (subscribeOp sm p c h).1 p (subscribeOp sm p c h).2).externalSubs
        = sm.externalSubs ∧
      (unsubscribeOp (subscribeOp sm p c h).1 p (subscribeOp sm p c h).2).state
        = sm.state ∧
      (unsubscribeOp (subscribeOp sm p c h).1 p (subscribeOp sm p c h).2).internalSubs
        = sm.internalSubs ∧
      (unsubscribeOp (subscribeOp sm p c h).1 p (subscribeOp sm p c h).2).nextSubId
        = sm.nextSubId + 1) ∧
    (∀ (sm2 : SM) (q : String) (sid : Nat),
      unsubscribeOp (unsubscribeOp sm2 q sid) q sid = unsubscribeOp sm2 q sid) ∧
    (cbAbsent c sm.externalSubs →
      ∀ (env : CbEnv) (p2 : String) (v : Value),
        ∀ q ∈ externalCalls (setState env
          (unsubscribeOp (subscribeOp sm p c h).1 p (subscribeOp sm p c h).2)
          p2 v).2, q.1 ≠ c) := by
  refine ⟨?_, ?_, ?_⟩
  · cases hl : alLookup sm.externalSubs p with
    | some l =>
        rw [subscribeOp_some sm p c h l hl]
        dsimp only
        have hfl : (l ++ [(⟨sm.nextSubId, c, h⟩ : SubRec)]).filter
            (fun r => r.id ≠ sm.nextSubId) = l := by
          rw [List.filter_append]
          rw [filter_id_fresh l sm.nextSubId
            (fun r hr => hids (p, l) (alLookup_mem _ _ _ hl) r hr)]
          simp
        have hlne : l ≠ [] := hne (p, l) (alLookup_mem _ _ _ hl)
        rw [unsubscribeOp_some_cons _ p sm.nextSubId (l ++ [⟨sm.nextSubId, c, h⟩])
          (alLookup_alSet_self _ _ _) (by rw [hfl]; exact hlne)]
        dsimp only
        rw [hfl]
        rw [alSet_alSet]
        rw [alSet_self _ _ _ hl]
        exact ⟨rfl, rfl, rfl, rfl⟩
    | none =>
        rw [subscribeOp_none sm p c h hl]
        dsimp only
        have hfl : ([(⟨sm.nextSubId, c, h⟩ : SubRec)].filter
            (fun r => r.id ≠ sm.nextSubId)) = [] := by simp
        rw [unsubscribeOp_some_nil _ p sm.nextSubId [⟨sm.nextSubId, c, h⟩]
          (alLookup_append_of_none _ _ _ hl) hfl]
        dsimp only
        rw [filter_append_key_restore _ _ _ hl]
        exact ⟨rfl, rfl, rfl, rfl⟩
  · intro sm2 q sid
    cases hl : alLookup sm2.externalSubs q with
    | none =>
        rw [unsubscribeOp_none sm2 q sid hl, unsubscribeOp_none sm2 q sid hl]
    | some l =>
        by_cases hl2 : l.filter (fun r => r.id ≠ sid) = []
        · rw [unsubscribeOp_some_nil sm2 q sid l hl hl2]
          exact unsubscribeOp_none _ q sid (alLookup_filter_ne _ _)
        · rw [unsubscribeOp_some_cons sm2 q sid l hl hl2]
          rw [unsubscribeOp_some_cons _ q sid (l.filter (fun r => r.id ≠ sid))
            (alLookup_alSet_self _ _ _) (by rw [filter_idem]; exact hl2)]
          dsimp only
          rw [filter_idem]
          rw [alSet_alSet]
  · intro habs env p2 v q hq
    have hreg : (unsubscribeOp (subscribeOp sm p c h).1 p
        (subscribeOp sm p c h).2).externalSubs = sm.externalSubs := by
      cases hl : alLookup sm.externalSubs p with
      | some l =>
          rw [subscribeOp_some sm p c h l hl]
          dsimp only
          have hfl : (l ++ [(⟨sm.nextSubId, c, h⟩ : SubRec)]).filter
              (fun r => r.id ≠ sm.nextSubId) = l := by
            rw [List.filter_append]
            rw [filter_id_fresh l sm.nextSubId
              (fun r hr => hids (p, l) (alLookup_mem _ _ _ hl) r hr)]
            simp
          have hlne : l ≠ [] := hne (p, l) (alLookup_mem _ _ _ hl)
          rw [unsubscribeOp_some_cons _ p sm.nextSubId (l ++ [⟨sm.nextSubId, c, h⟩])
            (alLookup_alSet_self _ _ _) (by rw [hfl]; exact hlne)]
          dsimp only
          rw [hfl]
          rw [alSet_alSet]
          rw [alSet_self _ _ _ hl]
      | none =>
          rw [subscribeOp_none sm p c h hl]
          dsimp only
          have hfl : ([(⟨sm.nextSubId, c, h⟩ : SubRec)].filter
              (fun r => r.id ≠ sm.nextSubId)) = [] := by simp
          rw [unsubscribeOp_some_nil _ p sm.nextSubId [⟨sm.nextSubId, c, h⟩]
            (alLookup_append_of_none _ _ _ hl) hfl]
          dsimp only
          rw [filter_append_key_restore _ _ _ hl]
    refine setState_externalCalls env _ p2 v c ?_ q hq
    rw [hreg]
    exact habs

theorem c10_unsubscribe_witness :
    subIdsBelow SM.initial ∧ noEmptyEntries SM.initial ∧
    (((unsubscribeOp (subscribeOp SM.initial "a" 0 false).1 "a"
          (subscribeOp SM.initial "a" 0 false).2).externalSubs
        = SM.initial.externalSubs ∧
      (unsubscribeOp (subscribeOp SM.initial "a" 0 false).1 "a"
          (subscribeOp SM.initial "a" 0 false).2).state = SM.initial.state ∧
      (unsubscribeOp (subscribeOp SM.initial "a" 0 false).1 "a"
          (subscribeOp SM.initial "a" 0 false).2).internalSubs
        = SM.initial.internalSubs ∧
      (unsubscribeOp (subscribeOp SM.initial "a" 0 false).1 "a"
          (subscribeOp SM.initial "a" 0 false).2).nextSubId
        = SM.initial.nextSubId + 1) ∧
    (∀ (sm2 : SM) (q : String) (sid : Nat),
      unsubscribeOp (unsubscribeOp sm2 q sid) q sid = unsubscribeOp sm2 q sid) ∧
    (cbAbsent 0 SM.initial.externalSubs →
      ∀ (env : CbEnv) (p2 : String) (v : Value),
        ∀ q ∈ externalCalls (setState env
          (unsubscribeOp (subscribeOp SM.initial "a" 0 false).1 "a"
            (subscribeOp SM.initial "a" 0 false).2)
          p2 v).2, q.1 ≠ 0)) :=
  ⟨fun e he => absurd he (List.not_mem_nil e),
   fun e he => absurd he (List.not_mem_nil e),
   c10_unsubscribe SM.initial "a" 0 false
     (fun e he => absurd he (List.not_mem_nil e))
     (fun e he => absurd he (List.not_mem_nil e))⟩

end Juris

namespace Juris

/-! ## Claim C7: renderer failure counter and child-list reconciliation -/

/-- The renderer state relevant to render-mode switching: `renderMode`,
`failureCount` and `maxFailures` from the `DOMRenderer` constructor. -/
structure DR where
  renderMode : String
  failureCount : Nat
  maxFailures : Nat
deriving DecidableEq

def DR.initial : DR :=
  { renderMode := "fine-grained", failureCount := 0, maxFailures := 3 }

/-- `setRenderMode(mode)`: only the two known mode strings are accepted. -/
def setRenderMode (dr : DR) (mode : String) : DR :=
  if mode == "fine-grained" || mode == "batch" then { dr with renderMode := mode }
  else dr

/-- Which code path `render(vnode)` used to build a plain element. -/
inductive RenderPath where
  | fineGrained
  | optimized
  | fallback
deriving DecidableEq

/-- The mode/failure skeleton of `render(vnode)` on a plain tag:
in fine-grained mode the fine-grained builder runs directly; otherwise the
optimized path runs under `try`, and on an exception (`optThrows`) the
failure counter increments, the mode drops to fine-grained once the counter
reaches `maxFailures`, and the fine-grained builder produces the element. -/
def renderStep (dr : DR) (optThrows : Bool) : DR × RenderPath :=
  if dr.renderMode == "fine-grained" then (dr, .fineGrained)
  else if optThrows then
    ({ dr with failureCount := dr.failureCount + 1, renderMode := if dr.maxFailures ≤ dr.failureCount + 1 then "fine-grained" else dr.renderMode }, .fallback)
  else (dr, .optimized)

/-- The per-list state captured by the `_handleChildrenOptimized` closure:
`useOptimizedPath` and `lastChildrenState` (initially `null`). -/
structure ChildList where
  useOptimizedPath : Bool
  lastChildrenState : Value

/-- What one `updateChildren` run did to the DOM. -/
inductive ChildAction where
  | skipped
  | reconciled
  | rebuilt
deriving DecidableEq

/-- `newChildren === "ignore"`. -/
def isIgnore : Value → Bool
  | .str s => s == "ignore"
  | _ => false

/-- The synchronous branch of the `updateChildren` closure in
`_handleChildrenOptimized`: skip on `"ignore"` or on `_childrenEqual`
(which is `deepEquals`); on the optimized path a `_reconcileChildren`
exception (`reconcileThrows`) is caught locally — `useOptimizedPath` is
cleared and `_updateChildren` rebuilds; off the optimized path every update
rebuilds.  The renderer state `dr` is threaded through untouched: the
closure never references the failure counter or the render mode. -/
def updateChildrenStep (cl : ChildList) (dr : DR) (newChildren : Value)
    (reconcileThrows : Bool) : ChildList × DR × ChildAction :=
  if isIgnore newChildren || deepEquals cl.lastChildrenState newChildren then
    (cl, dr, .skipped)
  else if cl.useOptimizedPath then
    if reconcileThrows then
      ({ useOptimizedPath := false, lastChildrenState := newChildren }, dr, .rebuilt)
    else ({ cl with lastChildrenState := newChildren }, dr, .reconciled)
  else (cl, dr, .rebuilt)

def c7_dr0 : DR := setRenderMode DR.initial "batch"

def c7_cl0 : ChildList := { useOptimizedPath := true, lastChildrenState := .null }

def c7_s1 : ChildList × DR × ChildAction :=
  updateChildrenStep c7_cl0 c7_dr0 (.str "a") true

def c7_s2 : ChildList × DR × ChildAction :=
  updateChildrenStep c7_s1.1 c7_s1.2.1 (.str "b") true

def c7_s3 : ChildList × DR × ChildAction :=
  updateChildrenStep c7_s2.1 c7_s2.2.1 (.str "c") true

def c7_s4 : ChildList × DR × ChildAction :=
  updateChildrenStep c7_s3.1 c7_s3.2.1 (.str "d") false

/-- **C7, counterexample.** In batch mode, three successive exceptions
during optimized child-list reconciliation leave the renderer completely
untouched: the failure counter is still 0 and the mode is still "batch"
(no switch to fine-grained ever happens on this path), so the claimed
counter increment per reconciliation exception does not exist.  Moreover
the fallback is not per call: the first exception permanently clears the
list's optimized flag, and a later update whose reconciliation would
succeed still takes the full-rebuild path. -/
theorem c7_counterexample :
    c7_dr0.renderMode = "batch" ∧
    c7_s1.1.useOptimizedPath = false ∧
    c7_s3.2.1 = c7_dr0 ∧
    c7_dr0.failureCount = 0 ∧
    c7_s3.2.1.renderMode = "batch" ∧
    c7_s4.2.2 = ChildAction.rebuilt :=
  ⟨rfl, rfl, rfl, rfl, rfl, rfl⟩

/-- **C7 (amended).** (1) Child-list reconciliation exceptions never touch
the renderer: `updateChildren` returns the renderer state unchanged (no
failure-counter increment, no mode change), and a reconciliation exception
on the optimized path permanently clears the list's `useOptimizedPath`
flag — once cleared, every later non-skipped update takes the
full-teardown-and-rebuild path.  (2) The module-wide failure counter is
driven by `render(vnode)` element-creation exceptions instead: each one
increments it and switches the renderer to fine-grained once the counter
reaches `maxFailures` (3); `render` never switches fine-grained back to
batch on its own, and only an explicit `setRenderMode("batch")` restores
batch mode. -/
theorem c7_amended :
    (∀ (cl : ChildList) (dr : DR) (v : Value) (rt : Bool),
      (updateChildrenStep cl dr v rt).2.1 = dr) ∧
    (∀ (cl : ChildList) (dr : DR) (v : Value),
      cl.useOptimizedPath = true →
      (isIgnore v || deepEquals cl.lastChildrenState v) = false →
      (updateChildrenStep cl dr v true).1.useOptimizedPath = false ∧
      (updateChildrenStep cl dr v true).2.2 = ChildAction.rebuilt) ∧
    (∀ (cl : ChildList) (dr : DR) (v : Value) (rt : Bool),
      cl.useOptimizedPath = false →
      (updateChildrenStep cl dr v rt).1.useOptimizedPath = false ∧
      ((updateChildrenStep cl dr v rt).2.2 = ChildAction.skipped ∨
        (updateChildrenStep cl dr v rt).2.2 = ChildAction.rebuilt)) ∧
    (∀ dr : DR, dr.renderMode = "batch" →
      (renderStep dr true).1.failureCount = dr.failureCount + 1 ∧
      (renderStep dr true).1.renderMode =
        (if dr.maxFailures ≤ dr.failureCount + 1 then "fine-grained" else "batch")) ∧
    (∀ (dr : DR) (t : Bool), dr.renderMode = "fine-grained" →
      (renderStep dr t).1 = dr) ∧
    (∀ (dr : DR) (t : Bool),
      (renderStep dr t).1.renderMode = dr.renderMode ∨
      (renderStep dr t).1.renderMode = "fine-grained") ∧
    (∀ dr : DR, (setRenderMode dr "batch").renderMode = "batch") := by
  refine ⟨?_, ?_, ?_, ?_, ?_, ?_, ?_⟩
  · intro cl dr v rt
    unfold updateChildrenStep
    by_cases h1 : (isIgnore v || deepEquals cl.lastChildrenState v) = true
    · rw [if_pos h1]
    · rw [if_neg h1]
      by_cases h2 : cl.useOptimizedPath = true
      · rw [if_pos h2]
        by_cases h3 : rt = true
        · rw [if_pos h3]
        · rw [if_neg h3]
      · rw [if_neg h2]
  · intro cl dr v hopt hne
    unfold updateChildrenStep
    rw [if_neg (by rw [hne]; exact Bool.false_ne_true), if_pos hopt,
      if_pos (rfl : true = true)]
    exact ⟨rfl, rfl⟩
  · intro cl dr v rt hopt
    unfold updateChildrenStep
    by_cases h1 : (isIgnore v || deepEquals cl.lastChildrenState v) = true
    · rw [if_pos h1]
      exact ⟨hopt, Or.inl rfl⟩
    · rw [if_neg h1]
      rw [if_neg (by rw [hopt]; exact Bool.false_ne_true)]
      exact ⟨hopt, Or.inr rfl⟩
  · intro dr hb
    unfold renderStep
    rw [if_neg (by rw [hb]; decide), if_pos (rfl : true = true)]
    constructor
    · rfl
    · dsimp only
      rw [hb]
  · intro dr t hf
    unfold renderStep
    rw [if_pos (by rw [hf]; rfl)]
  · intro dr t
    unfold renderStep
    by_cases h1 : (dr.renderMode == "fine-grained") = true
    · rw [if_pos h1]
      exact Or.inl rfl
    · rw [if_neg h1]
      by_cases h2 : t = true
      · rw [if_pos h2]
        dsimp only
        by_cases h3 : dr.maxFailures ≤ dr.failureCount + 1
        · rw [if_pos h3]
          exact Or.inr rfl
        · rw [if_neg h3]
          exact Or.inl rfl
      · rw [if_neg h2]
        exact Or.inl rfl
  · intro dr
    unfold setRenderMode
    rw [if_pos (by rfl)]

/-- **C7, witness.** The amended theorem applied at concrete inputs:
a throwing reconciliation on a fresh optimized list leaves the batch-mode
renderer untouched but permanently clears the optimized flag, and two
`render` exceptions starting from failure count 1 reach the threshold and
switch the renderer to fine-grained. -/
theorem c7_amended_witness :
    (updateChildrenStep c7_cl0 c7_dr0 (.str "a") true).2.1 = c7_dr0 ∧
    (updateChildrenStep c7_cl0 c7_dr0 (.str "a") true).1.useOptimizedPath = false ∧
    (renderStep { renderMode := "batch", failureCount := 2, maxFailures := 3 } true).1.failureCount = 3 ∧
    (renderStep { renderMode := "batch", failureCount := 2, maxFailures := 3 } true).1.renderMode = "fine-grained" ∧
    (setRenderMode c7_dr0 "batch").renderMode = "batch" := by
  have h := c7_amended
  refine ⟨h.1 c7_cl0 c7_dr0 (.str "a") true,
    (h.2.1 c7_cl0 c7_dr0 (.str "a") rfl (by decide)).1, ?_, ?_,
    h.2.2.2.2.2.2 c7_dr0⟩
  · exact (h.2.2.2.1 { renderMode := "batch", failureCount := 2, maxFailures := 3 } rfl).1
  · have h2 := (h.2.2.2.1 { renderMode := "batch", failureCount := 2, maxFailures := 3 } rfl).2
    rw [h2]
    decide

end Juris

namespace Juris

/-! ## Claim C9: `context.newState` and the `Symbol('not-found')` guard -/

/-- JS `===` between a value and a symbol identity: true only for the very
same symbol. -/
def jsEqSym : Value → Nat → Bool
  | .sym i, j => i == j
  | _, _ => false

/-- The slot path template of `context.newState`:
`__local.${componentId}.${key}`. -/
def localStatePath (componentId key : String) : String :=
  "__local." ++ componentId ++ "." ++ key

mutual

/-- No symbol with identity `s` occurs anywhere in the value.  Every value
the state tree can hold after ordinary writes satisfies this for a freshly
allocated symbol identity. -/
def symFree : Value → Nat → Bool
  | .sym i, s => !(i == s)
  | .obj _ fs, s => symFreeFields fs s
  | _, _ => true

def symFreeFields : Fields → Nat → Bool
  | [], _ => true
  | (_, v) :: rest, s => symFree v s && symFreeFields rest s

end

/-- `context.newState(key, initialValue)` from `_createComponentContext`:
each evaluation of `Symbol('not-found')` allocates a fresh identity — `s1`
for the `getState` default argument and `s2` for the right operand of the
`===` — and the `setState` that would allocate the slot runs only when the
guard holds. -/
def newStateCall (env : CbEnv) (sm : SM) (statePath : String) (initial : Value)
    (s1 s2 : Nat) : SM × List Ev :=
  if jsEqSym (getStateRaw sm.state statePath (.sym s1)) s2 then
    setState env sm statePath initial
  else (sm, [])

theorem symFree_jsEqSym (v : Value) (s : Nat) (h : symFree v s = true) :
    jsEqSym v s = false := by
  cases v with
  | sym i =>
      simp only [symFree] at h
      simp only [jsEqSym]
      simpa using h
  | null => rfl
  | bool b => rfl
  | num n => rfl
  | str t => rfl
  | obj a fs => rfl

theorem lookupField_symFree (fs : Fields) (s : Nat) (k : String) (v : Value)
    (hf : symFreeFields fs s = true) (hl : lookupField fs k = some v) :
    symFree v s = true := by
  induction fs with
  | nil => simp [lookupField] at hl
  | cons hd tl ih =>
      obtain ⟨k2, v2⟩ := hd
      simp only [symFreeFields, Bool.and_eq_true] at hf
      by_cases hk : k2 == k
      · simp only [lookupField, hk, if_true, Option.some.injEq] at hl
        subst hl
        exact hf.1
      · simp only [lookupField, hk, Bool.false_eq_true, if_false] at hl
        exact ih hf.2 hl

theorem readPath_symFree (s : Nat) :
    ∀ (parts : List String) (root v : Value),
      symFree root s = true → readPath root parts = some v →
      symFree v s = true := by
  intro parts
  induction parts with
  | nil =>
      intro root v hr hp
      simp only [readPath, Option.some.injEq] at hp
      subst hp
      exact hr
  | cons k rest ih =>
      intro root v hr hp
      simp only [readPath] at hp
      cases hm : memberGet root k with
      | none => rw [hm] at hp; cases hp
      | some w =>
          rw [hm] at hp
          dsimp only at hp
          have hw : symFree w s = true := by
            cases root with
            | obj a fs =>
                simp only [memberGet] at hm
                exact lookupField_symFree fs s k w (by simpa [symFree] using hr) hm
            | null => simp [memberGet] at hm
            | bool b => simp [memberGet] at hm
            | num n => simp [memberGet] at hm
            | str t => simp [memberGet] at hm
            | sym i => simp [memberGet] at hm
          exact ih w v hw hp

theorem getStateRaw_symFree_ne (st : Fields) (path : String) (s1 s2 : Nat)
    (hfree : symFreeFields st s2 = true) (hs : s1 ≠ s2) :
    jsEqSym (getStateRaw st path (.sym s1)) s2 = false := by
  unfold getStateRaw
  by_cases hv : isValidPath path = true
  · rw [if_pos hv]
    cases hp : readPath (.obj false st) (getPathParts path) with
    | none =>
        dsimp only
        simp only [jsEqSym]
        simpa using hs
    | some v =>
        dsimp only
        exact symFree_jsEqSym v s2
          (readPath_symFree s2 (getPathParts path) _ v (by simpa [symFree] using hfree) hp)
  · rw [if_neg hv]
    simp only [jsEqSym]
    simpa using hs

theorem newStateCall_noop (env : CbEnv) (sm : SM) (sp : String) (v0 : Value)
    (s1 s2 : Nat) (hfree : symFreeFields sm.state s2 = true) (hs : s1 ≠ s2) :
    newStateCall env sm sp v0 s1 s2 = (sm, []) := by
  have h := getStateRaw_symFree_ne sm.state sp s1 s2 hfree hs
  simp [newStateCall, h]

/-- **C9.** `context.newState(key, initial)` never allocates the slot: the
guard compares `getState(statePath, Symbol('not-found'))` with a second,
separately allocated `Symbol('not-found')`, and two separately allocated
symbols are never `===`-equal, so whenever the state tree holds no symbol
with the comparison identity (always true for a fresh symbol) the guard is
false and the allocating `setState` is dead code.  Concretely for instance
"Counter_1", key "count", initial 5: the call is a complete no-op; reading
`__local.Counter_1.count` from the state tree yields the read default
(`null`), not 5.  Only the returned getter shows 5 — it passes `initial`
as the `getState` default — and after a setter call the stored value is
returned. -/
theorem c9_newState_never_allocates (env : CbEnv) (sm : SM) (sp : String)
    (v0 : Value) (s1 s2 : Nat) (hfree : symFreeFields sm.state s2 = true)
    (hs : s1 ≠ s2) :
    newStateCall env sm sp v0 s1 s2 = (sm, []) ∧
    (newStateCall passiveEnv SM.initial (localStatePath "Counter_1" "count")
        (.num 5) 0 1 = (SM.initial, []) ∧
      getStateRaw SM.initial.state (localStatePath "Counter_1" "count") .null = .null ∧
      getStateRaw SM.initial.state (localStatePath "Counter_1" "count") (.num 5) = .num 5 ∧
      getStateRaw (setState passiveEnv SM.initial (localStatePath "Counter_1" "count")
          (.num 7)).1.state (localStatePath "Counter_1" "count") (.num 5) = .num 7) := by
  refine ⟨newStateCall_noop env sm sp v0 s1 s2 hfree hs, ?_, ?_, ?_, ?_⟩
  · rfl
  · rfl
  · rfl
  · rfl

/-- **C9, witness.** The theorem applied at the concrete component
instance: the initial (empty) state tree holds no symbol at all, the two
fresh symbol identities differ, and the `newState` call changes nothing. -/
theorem c9_newState_never_allocates_witness :
    symFreeFields SM.initial.state 1 = true ∧ (0 : Nat) ≠ 1 ∧
    newStateCall passiveEnv SM.initial (localStatePath "Counter_1" "count")
      (.num 5) 0 1 = (SM.initial, []) :=
  ⟨rfl, by decide,
   (c9_newState_never_allocates passiveEnv SM.initial
     (localStatePath "Counter_1" "count") (.num 5) 0 1 rfl (by decide)).1⟩

/-! ## Claim C1: hydration staging and the async-completion tracker -/

/-- A JavaScript value as seen by `await`: only thenables suspend the
awaiting coroutine until they settle; any other value resumes it on the
next microtask. -/
inductive JSv where
  | undef
  | fn (id : Nat)
  | promiseV (id : Nat)
deriving DecidableEq

def isThenable : JSv → Bool
  | .promiseV _ => true
  | _ => false

/-- The closure state of `createPromisify`: the in-flight promise set, the
tracking flag and the completion subscribers. -/
structure Tracker where
  activePromises : List Nat
  isTracking : Bool
  subscribers : List JSv

/-- `trackingPromisify(result)`: an already-thenable result passes through
untouched (and is never tracked, since `promise === result`); anything else
is wrapped in `Promise.resolve` (a fresh promise identity), and the wrapper
joins the in-flight set while tracking is on. -/
def promisify (t : Tracker) (result : JSv) (freshId : Nat) : Tracker × JSv :=
  match result with
  | .promiseV i => (t, .promiseV i)
  | _ =>
      if t.isTracking then
        ({ t with activePromises := t.activePromises ++ [freshId] }, .promiseV freshId)
      else (t, .promiseV freshId)

/-- A tracked promise settles: `promise.finally` removes it from the
in-flight set. -/
def settlePromise (t : Tracker) (i : Nat) : Tracker :=
  { t with activePromises := t.activePromises.filter (fun j => j ≠ i) }

def startTracking (t : Tracker) : Tracker :=
  { t with isTracking := true, activePromises := [] }

def stopTracking (t : Tracker) : Tracker :=
  { t with isTracking := false, subscribers := [] }

/-- `checkAllComplete`: the callbacks fired by the deferred check — all
subscribers, but only when no promise is in flight. -/
def checkAllComplete (t : Tracker) : List JSv :=
  if t.activePromises.isEmpty && !t.subscribers.isEmpty then t.subscribers else []

/-- `onAllComplete(callback)`: add the callback to the subscriber set,
schedule it immediately (`setTimeout(callback, 0)`) exactly when the
in-flight set is empty, and RETURN the unsubscribe closure
`() => subscribers.delete(callback)` — a plain function value, not a
promise.  The middle component records whether the immediate schedule
happened. -/
def onAllComplete (t : Tracker) (callback : JSv) : Tracker × Bool × JSv :=
  ({ t with subscribers := t.subscribers ++ [callback] },
    t.activePromises.isEmpty,
    .fn 0)

/-- The tracker as `_renderWithHydration` leaves it right before its
`await`: `startTracking()` ran, then the staged render registered one async
chain through `promisify`, still unsettled. -/
def c1_t0 : Tracker :=
  startTracking { activePromises := [], isTracking := false, subscribers := [] }

def c1_r1 : Tracker × JSv := promisify c1_t0 .undef 7

/-- The `await onAllComplete()` of `_renderWithHydration`: `onAllComplete`
is called with no argument, so the registered callback is `undefined`. -/
def c1_call : Tracker × Bool × JSv := onAllComplete c1_r1.1 JSv.undef

/-- **C1.** `_renderWithHydration` does NOT wait for the in-flight promise
set to empty: `await onAllComplete()` awaits the RETURN VALUE of
`onAllComplete`, which is the unsubscribe closure — a plain function for
every tracker state and callback, never a thenable — so the `await`
resumes on the next microtask and the staged children are swapped into the
live container regardless of the in-flight set.  In the concrete hydration
scenario one tracked promise (id 7) is still unsettled at the await: the
swap is not deferred (the awaited value is not thenable), no immediate
completion schedule fires, and the subscriber actually registered is
`undefined` (the argument-less call), which `checkAllComplete` would later
invoke as a function. -/
theorem c1_hydration_swap_not_gated (t : Tracker) (cb : JSv) :
    ((onAllComplete t cb).2.2 = JSv.fn 0 ∧
      isThenable (onAllComplete t cb).2.2 = false ∧
      (onAllComplete t cb).1.subscribers = t.subscribers ++ [cb]) ∧
    (c1_r1.1.activePromises = [7] ∧
      isThenable c1_call.2.2 = false ∧
      c1_call.2.1 = false ∧
      c1_call.1.subscribers = [JSv.undef]) :=
  ⟨⟨rfl, rfl, rfl⟩, rfl, rfl, rfl, rfl⟩

end Juris
